import Mathlib

/-!
Verification of the multi-provider translation request router
(`supabase/functions/translate/index.ts`): a shallow embedding of the
edge function's pure logic — request validation, provider dispatch,
URL/model normalization, markdown sanitization, and response-shape
extraction — together with proofs of the specification's claims.

Strings are embedded as `List Char` (`Str`) so that the JavaScript
string operations used by the source (trim, trailing-slash stripping,
`endsWith`, `includes`, regex replaces) can be reasoned about by list
induction, and machine-checked on concrete inputs by `decide`.
-/

namespace Translate

/-- Strings of the embedded program: JavaScript strings as lists of characters. -/
abbrev Str := List Char

/-- Convert a Lean string literal to an embedded string. -/
def lit (s : String) : Str := s.data

/-- Model of the JavaScript `\s` / `String.prototype.trim` whitespace class,
restricted to the whitespace characters Lean's `Char.isWhitespace` knows
(space, tab, CR, LF); the source never builds URLs or messages containing
the more exotic Unicode whitespace, so the restriction is inessential. -/
def jsWs (c : Char) : Bool := c.isWhitespace

/-- JavaScript `url.trim()`: drop leading and trailing whitespace. -/
def jsTrim (s : Str) : Str := ((s.dropWhile jsWs).reverse.dropWhile jsWs).reverse

/-- JavaScript `url.replace(/\/+$/, "")`: drop the maximal trailing run of slashes. -/
def stripTrailingSlashes (s : Str) : Str := (s.reverse.dropWhile (· == '/')).reverse

/-- `normalizeBaseUrl` from the source: `url.trim().replace(/\/+$/, "")`. -/
def normalizeBaseUrl (s : Str) : Str := stripTrailingSlashes (jsTrim s)

/-- JavaScript `s.endsWith(suffix)`. -/
def endsWithL (s suffix : Str) : Bool := suffix.reverse.isPrefixOf s.reverse

/-- JavaScript `s.includes(sub)`: substring test. -/
def isSubstr (needle : Str) : Str → Bool
  | [] => needle.isEmpty
  | c :: t => needle.isPrefixOf (c :: t) || isSubstr needle t

/-- Model of the regex test `/\/v\d+$/.test(url)`: the string ends with a slash,
a letter `v`, and one or more ASCII digits. -/
def endsWithVNum (s : Str) : Bool :=
  let r := s.reverse
  let ds := r.takeWhile Char.isDigit
  decide (ds ≠ []) && revTailIsVSlash (r.drop ds.length)
where
  /-- Check that a reversed remainder begins with `v` then `/`. -/
  revTailIsVSlash : Str → Bool
    | 'v' :: '/' :: _ => true
    | _ => false

/-- Decimal rendering of a number, as JavaScript template literals render
an integer HTTP status (`${response.status}`). -/
def natToStr (n : Nat) : Str := (Nat.repr n).data

end Translate

namespace Translate

/-- The provider type union from the source
(`type ProviderType = "openai" | ... | "custom"`). -/
inductive ProviderType where
  | openai
  | gemini
  | anthropic
  | azure
  | ollama
  | deepseek
  | qwen
  | deeplx
  | microsoft
  | googleTranslate
  | custom
deriving DecidableEq, Repr

/-- `OPENAI_COMPATIBLE_PROVIDERS` from the source. -/
def OPENAI_COMPATIBLE_PROVIDERS : List ProviderType :=
  [.openai, .deepseek, .qwen, .ollama, .custom]

/-- `DEFAULT_PROVIDER_BASE_URLS` from the source. -/
def DEFAULT_PROVIDER_BASE_URLS : ProviderType → Str
  | .openai => lit "https://api.openai.com/v1/chat/completions"
  | .gemini => lit "https://generativelanguage.googleapis.com/v1beta"
  | .anthropic => lit "https://api.anthropic.com/v1/messages"
  | .azure => []
  | .ollama => lit "http://localhost:11434/v1/chat/completions"
  | .deepseek => lit "https://api.deepseek.com/v1/chat/completions"
  | .qwen => lit "https://dashscope.aliyuncs.com/compatible-mode/v1/chat/completions"
  | .deeplx => lit "https://api.deeplx.org/translate"
  | .microsoft => lit "https://api.cognitive.microsofttranslator.com"
  | .googleTranslate => lit "https://translation.googleapis.com"
  | .custom => []

/-- `DEFAULT_MODELS` from the source; a partial table (`none` for the three
providers that have no default model entry). -/
def DEFAULT_MODELS : ProviderType → Option Str
  | .openai => some (lit "gpt-4o-mini")
  | .gemini => some (lit "gemini-2.5-flash")
  | .anthropic => some (lit "claude-sonnet-4-20250514")
  | .azure => some (lit "gpt-4o-mini")
  | .ollama => some (lit "llama3")
  | .deepseek => some (lit "deepseek-chat")
  | .qwen => some (lit "qwen-turbo")
  | .custom => some (lit "gpt-4o-mini")
  | _ => none

/-- JavaScript truthiness of an optional string: `undefined` and the empty
string are falsy. -/
def jsTruthyStr : Option Str → Bool
  | none => false
  | some s => decide (s ≠ [])

/-- JavaScript `a || b` on an optional string with a string default. -/
def jsOrStr (a : Option Str) (b : Str) : Str :=
  match a with
  | some s => if s ≠ [] then s else b
  | none => b

/-- `normalizeOpenAICompatibleUrl` from the source. -/
def normalizeOpenAICompatibleUrl (rawUrl : Str) : Str :=
  let url := normalizeBaseUrl rawUrl
  if url = [] then DEFAULT_PROVIDER_BASE_URLS .openai
  else if endsWithL url (lit "/chat/completions") then url
  else if endsWithL url (lit "/v1") then url ++ lit "/chat/completions"
  else if endsWithVNum url then url ++ lit "/chat/completions"
  else url ++ lit "/v1/chat/completions"

/-- `normalizeAnthropicUrl` from the source. -/
def normalizeAnthropicUrl (rawUrl : Option Str) : Str :=
  let base := normalizeBaseUrl (jsOrStr rawUrl (DEFAULT_PROVIDER_BASE_URLS .anthropic))
  if endsWithL base (lit "/v1/messages") then base
  else if endsWithL base (lit "/v1") then base ++ lit "/messages"
  else base ++ lit "/v1/messages"

/-- `normalizeGeminiBase` from the source. -/
def normalizeGeminiBase (rawUrl : Option Str) : Str :=
  normalizeBaseUrl (jsOrStr rawUrl (DEFAULT_PROVIDER_BASE_URLS .gemini))

/-- `normalizeDeepLXUrl` from the source. -/
def normalizeDeepLXUrl (rawUrl : Option Str) : Str :=
  let base := normalizeBaseUrl (jsOrStr rawUrl (DEFAULT_PROVIDER_BASE_URLS .deeplx))
  if endsWithL base (lit "/translate") then base else base ++ lit "/translate"

/-- `resolveOpenAICompatibleUrl` from the source. -/
def resolveOpenAICompatibleUrl (providerType : ProviderType) (customBaseUrl : Option Str) : Str :=
  let fallback :=
    if DEFAULT_PROVIDER_BASE_URLS providerType ≠ [] then DEFAULT_PROVIDER_BASE_URLS providerType
    else DEFAULT_PROVIDER_BASE_URLS .openai
  normalizeOpenAICompatibleUrl (jsOrStr customBaseUrl fallback)

/-- `resolveModel` from the source: the trimmed requested model when non-empty,
else the provider's default model, else `"gpt-4o-mini"`. -/
def resolveModel (providerType : ProviderType) (requestedModel : Option Str) : Str :=
  let model := (requestedModel.map jsTrim).getD []
  if model ≠ [] then model
  else jsOrStr (DEFAULT_MODELS providerType) (lit "gpt-4o-mini")

end Translate

namespace Translate

/-- JSON values, as delivered by `await req.json()` / `await response.json()`.
Numbers are modelled as integers (the handler never does arithmetic on
JSON numbers; only their JavaScript truthiness — zero is falsy — matters). -/
inductive Json where
  | null
  | bool (b : Bool)
  | num (n : Int)
  | str (s : Str)
  | arr (elems : List Json)
  | obj (fields : List (Str × Json))

/-- JavaScript truthiness of a JSON value (a missing field is `Json.null`). -/
def jsTruthy : Json → Bool
  | .null => false
  | .bool b => b
  | .num n => decide (n ≠ 0)
  | .str s => decide (s ≠ [])
  | .arr _ => true
  | .obj _ => true

/-- Whether a JSON value is a string (`typeof x === "string"`). -/
def Json.isStr : Json → Bool
  | .str _ => true
  | _ => false

/-- Property access `x?.k`: field lookup on an object, `null` (undefined)
on every other value. Objects produced by `JSON.parse` have distinct keys,
so first-match lookup is faithful. -/
def jGet (j : Json) (k : Str) : Json :=
  match j with
  | .obj fields => ((fields.find? fun f => f.1 = k).map Prod.snd).getD .null
  | _ => .null

end Translate

namespace Translate

/-- `VALID_LANGS` from the source. -/
def VALID_LANGS : List Str :=
  [lit "auto", lit "zh", lit "en", lit "ja", lit "ko", lit "fr", lit "de",
   lit "es", lit "pt", lit "it", lit "ru", lit "ar", lit "th", lit "vi",
   lit "id", lit "ms", lit "hi", lit "tr", lit "pl", lit "nl", lit "sv",
   lit "da", lit "fi", lit "no", lit "uk", lit "cs", lit "ro", lit "el",
   lit "hu", lit "bg"]

/-- `langMap` from the source: language code to human-readable name. -/
def langMap : List (Str × Str) :=
  [(lit "auto", lit "auto-detect the source language"),
   (lit "zh", lit "Chinese"), (lit "en", lit "English"),
   (lit "ja", lit "Japanese"), (lit "ko", lit "Korean"),
   (lit "fr", lit "French"), (lit "de", lit "German"),
   (lit "es", lit "Spanish"), (lit "pt", lit "Portuguese"),
   (lit "it", lit "Italian"), (lit "ru", lit "Russian"),
   (lit "ar", lit "Arabic"), (lit "th", lit "Thai"),
   (lit "vi", lit "Vietnamese"), (lit "id", lit "Indonesian"),
   (lit "ms", lit "Malay"), (lit "hi", lit "Hindi"),
   (lit "tr", lit "Turkish"), (lit "pl", lit "Polish"),
   (lit "nl", lit "Dutch"), (lit "sv", lit "Swedish"),
   (lit "da", lit "Danish"), (lit "fi", lit "Finnish"),
   (lit "no", lit "Norwegian"), (lit "uk", lit "Ukrainian"),
   (lit "cs", lit "Czech"), (lit "ro", lit "Romanian"),
   (lit "el", lit "Greek"), (lit "hu", lit "Hungarian"),
   (lit "bg", lit "Bulgarian")]

/-- `msLangMap` from the source: Microsoft BCP-47 variants. -/
def msLangMap : List (Str × Str) :=
  [(lit "zh", lit "zh-Hans"), (lit "en", lit "en"), (lit "ja", lit "ja"),
   (lit "ko", lit "ko"), (lit "fr", lit "fr"), (lit "de", lit "de"),
   (lit "es", lit "es"), (lit "pt", lit "pt"), (lit "it", lit "it"),
   (lit "ru", lit "ru"), (lit "ar", lit "ar"), (lit "th", lit "th"),
   (lit "vi", lit "vi"), (lit "id", lit "id"), (lit "ms", lit "ms"),
   (lit "hi", lit "hi"), (lit "tr", lit "tr"), (lit "pl", lit "pl"),
   (lit "nl", lit "nl"), (lit "sv", lit "sv"), (lit "da", lit "da"),
   (lit "fi", lit "fi"), (lit "no", lit "nb"), (lit "uk", lit "uk"),
   (lit "cs", lit "cs"), (lit "ro", lit "ro"), (lit "el", lit "el"),
   (lit "hu", lit "hu"), (lit "bg", lit "bg")]

/-- `googleLangMap` from the source: the Microsoft table with `zh` and `no`
overridden (object spread `{...msLangMap, zh: "zh-CN", no: "no"}`). -/
def googleLangMap : List (Str × Str) :=
  msLangMap.map fun p =>
    if p.1 = lit "zh" then (p.1, lit "zh-CN")
    else if p.1 = lit "no" then (p.1, lit "no")
    else p

/-- Table lookup `table[key]`, yielding `none` for a missing key
(JavaScript `undefined`). -/
def tableGet (table : List (Str × Str)) (k : Str) : Option Str :=
  (table.find? fun p => p.1 = k).map Prod.snd

/-- JavaScript `table[key] || fallback`. -/
def tableGetD (table : List (Str × Str)) (k fallback : Str) : Str :=
  jsOrStr (tableGet table k) fallback

end Translate

namespace Translate

/-- Model of the JavaScript regex `.` character class (matches everything
except line terminators). -/
def dotOk (c : Char) : Bool :=
  !(c = '\n' || c = '\r' || c = Char.ofNat 0x2028 || c = Char.ofNat 0x2029)

/-- Lazy search used by `/\*\*(.+?)\*\*/`-style replaces: find the shortest
non-empty run of `dotOk` characters followed by the closing delimiter,
returning the run and the remainder after the delimiter. -/
def lazyDelimSearch (close : Str) : Str → Option (Str × Str)
  | [] => none
  | c :: t =>
    if dotOk c then
      if close.isPrefixOf t then some ([c], t.drop close.length)
      else match lazyDelimSearch close t with
        | some (x, rest) => some (c :: x, rest)
        | none => none
    else none

/-- One global regex replace `s.replace(/open(.+?)open/g, "$1")` for a
symmetric delimiter (used for `**` and `*`), written with explicit fuel so
the kernel can evaluate it; `fuel = s.length` always suffices because each
step consumes at least one input character. -/
def replaceDelimF (delim : Str) : Nat → Str → Str
  | 0, s => s
  | _ + 1, [] => []
  | fuel + 1, c :: t =>
    if delim.isPrefixOf (c :: t) then
      match lazyDelimSearch delim ((c :: t).drop delim.length) with
      | some (x, rest) => x ++ replaceDelimF delim fuel rest
      | none => c :: replaceDelimF delim fuel t
    else c :: replaceDelimF delim fuel t

/-- `s.replace(/\*\*(.+?)\*\*/g, "$1")`. -/
def replaceBold (s : Str) : Str := replaceDelimF (lit "**") s.length s

/-- `s.replace(/\*(.+?)\*/g, "$1")`. -/
def replaceItalic (s : Str) : Str := replaceDelimF (lit "*") s.length s

/-- Attempt the line-anchored match `/^#{1,6}\s+/` (for `isHeader = true`)
or `/^[-*+]\s+/` (for `isHeader = false`) at the current position,
returning the remainder after the match and whether the matched text ended
with a newline (so the next position is again a line start). -/
def lineMarkerMatch (isHeader : Bool) (s : Str) : Option (Str × Bool) :=
  let marker :=
    if isHeader then
      let hs := s.takeWhile (· == '#')
      if 1 ≤ hs.length ∧ hs.length ≤ 6 then some hs.length else none
    else
      match s with
      | c :: _ => if c = '-' || c = '*' || c = '+' then some 1 else none
      | [] => none
  match marker with
  | none => none
  | some n =>
    let afterMarker := s.drop n
    let ws := afterMarker.takeWhile jsWs
    if ws = [] then none
    else some (afterMarker.drop ws.length, decide (ws.getLast? = some '\n'))

/-- One global multiline replace `s.replace(/^#{1,6}\s+/gm, "")` or
`s.replace(/^[-*+]\s+/gm, "")`: scan the string tracking whether the
current position is a line start; fuelled for kernel evaluation. -/
def replaceLineMarkerF (isHeader : Bool) : Nat → Bool → Str → Str
  | 0, _, s => s
  | _ + 1, _, [] => []
  | fuel + 1, atLineStart, c :: t =>
    if atLineStart then
      match lineMarkerMatch isHeader (c :: t) with
      | some (rest, nl) => replaceLineMarkerF isHeader fuel nl rest
      | none => c :: replaceLineMarkerF isHeader fuel (c = '\n') t
    else c :: replaceLineMarkerF isHeader fuel (c = '\n') t

/-- `s.replace(/^#{1,6}\s+/gm, "")`. -/
def replaceHeaders (s : Str) : Str := replaceLineMarkerF true s.length true s

/-- `s.replace(/^[-*+]\s+/gm, "")`. -/
def replaceBullets (s : Str) : Str := replaceLineMarkerF false s.length true s

/-- One step of the inline-code-span replace: at a backtick, take the maximal
non-empty backtick-free run; it matches only when followed by a closing
backtick. -/
def codeSpanMatch (s : Str) : Option (Str × Str) :=
  let inner := s.takeWhile (fun c => c ≠ Char.ofNat 96)
  if inner = [] then none
  else match s.drop inner.length with
    | c :: rest => if c = Char.ofNat 96 then some (inner, rest) else none
    | [] => none

/-- Global replace of the regex whose pattern is an opening backtick,
one or more non-backtick characters, and a closing backtick, by the inner
characters (the fifth replace of `sanitizeTranslatedText`); fuelled. -/
def replaceCodeSpansF : Nat → Str → Str
  | 0, s => s
  | _ + 1, [] => []
  | fuel + 1, c :: t =>
    if c = Char.ofNat 96 then
      match codeSpanMatch t with
      | some (inner, rest) => inner ++ replaceCodeSpansF fuel rest
      | none => c :: replaceCodeSpansF fuel t
    else c :: replaceCodeSpansF fuel t

/-- The code-span replace of `sanitizeTranslatedText`. -/
def replaceCodeSpans (s : Str) : Str := replaceCodeSpansF s.length s

/-- `sanitizeTranslatedText` from the source: the five chained regex
replaces stripping bold, italic, line-leading headers, line-leading
bullet markers, and inline code spans. -/
def sanitizeTranslatedText (s : Str) : Str :=
  replaceCodeSpans (replaceBullets (replaceHeaders (replaceItalic (replaceBold s))))

end Translate

namespace Translate

/-- JavaScript `a || b` on JSON values. -/
def jsOr (a b : Json) : Json := if jsTruthy a then a else b

/-- Whether `typeof x === "object"` (arrays and objects; `null` also has
type `"object"` but every use in the source guards it behind truthiness). -/
def jsObjLike : Json → Bool
  | .obj _ => true
  | .arr _ => true
  | _ => false

/-- Index access `x?.[0]` with JavaScript semantics: first element of an
array, first character of a string, the `"0"` property of an object,
undefined otherwise. -/
def jIdx0 : Json → Json
  | .arr (x :: _) => x
  | .str (c :: _) => .str [c]
  | .obj fields => jGet (.obj fields) (lit "0")
  | _ => .null

/-- `getSystemPrompt` from the source. -/
def getSystemPrompt (sourceLang targetLang : Str) : Str :=
  let auto := lit "auto-detect the source language"
  let srcName := if sourceLang ≠ [] then tableGetD langMap sourceLang sourceLang else auto
  let tgtName := if targetLang ≠ [] then tableGetD langMap targetLang targetLang else lit "English"
  lit "You are a professional translator. " ++
    (if srcName = auto then lit "Auto-detect the source language and translate"
     else lit "Translate from " ++ srcName) ++
    lit " to " ++ tgtName ++
    lit ". Only return the plain translated text, nothing else. Do NOT use any markdown formatting such as bold (**), italic (*), headers (#), bullet points, or any other markup. Preserve paragraph structure using plain newlines only."

/-- `getOpenAIContent` from the source:
`data.choices?.[0]?.message?.content`, trimmed when it is a string,
empty otherwise. -/
def getOpenAIContent (data : Json) : Str :=
  if ¬ jsTruthy data ∨ ¬ jsObjLike data then []
  else
    let content := jGet (jGet (jIdx0 (jGet data (lit "choices"))) (lit "message")) (lit "content")
    match content with
    | .str s => jsTrim s
    | _ => []

/-- `getGeminiContent` from the source: join the texts of
`candidates?.[0]?.content?.parts`, trim, and fall back to the empty
string; a non-array `parts` short-circuits the optional chain. -/
def getGeminiContent (data : Json) : Str :=
  if ¬ jsTruthy data ∨ ¬ jsObjLike data then []
  else
    let parts := jGet (jGet (jIdx0 (jGet data (lit "candidates"))) (lit "content")) (lit "parts")
    match parts with
    | .arr xs =>
      let pieces := xs.map fun part =>
        match jGet part (lit "text") with
        | .str s => if s ≠ [] then s else []
        | _ => []
      let joined := jsTrim ((pieces.intersperse (lit "\n")).flatten)
      if joined ≠ [] then joined else []
    | _ => []

/-- `getAnthropicContent` from the source: join the `text` fields of the
`content` items whose `type` is `"text"`, trimmed. -/
def getAnthropicContent (data : Json) : Str :=
  if ¬ jsTruthy data ∨ ¬ jsObjLike data then []
  else
    match jGet data (lit "content") with
    | .arr items =>
      let texts := (items.filter fun item =>
        (match jGet item (lit "type") with
         | .str s => decide (s = lit "text")
         | _ => false) && (jGet item (lit "text")).isStr).map
          fun item =>
            match jGet item (lit "text") with
            | .str s => s
            | _ => []
      jsTrim ((texts.intersperse (lit "\n")).flatten)
    | .null => []
    | .bool _ => []
    | .num _ => []
    | .str _ => []
    | .obj _ => []

/-- `getDeepLXContent` from the source: the first truthy of the
`translatedText`, `data`, `translation`, `text` fields, else `""`.
The result is the raw JSON field value, as in the source. -/
def getDeepLXContent (data : Json) : Json :=
  if ¬ jsTruthy data ∨ ¬ jsObjLike data then .str []
  else
    jsOr (jGet data (lit "translatedText"))
      (jsOr (jGet data (lit "data"))
        (jsOr (jGet data (lit "translation"))
          (jsOr (jGet data (lit "text")) (.str []))))

end Translate

namespace Translate

/-- Split a string at the first occurrence of a separator character,
returning the part before it and — when the separator occurs — the part
after it. -/
def splitFirst (sep : Char) : Str → Str × Option Str
  | [] => ([], none)
  | c :: t =>
    if c = sep then ([], some t)
    else
      let p := splitFirst sep t
      (c :: p.1, p.2)

/-- Split a string on every occurrence of a separator character. -/
def splitOnChar (sep : Char) : Str → List Str
  | [] => [[]]
  | c :: t =>
    let groups := splitOnChar sep t
    if c = sep then [] :: groups
    else
      match groups with
      | g :: gs => (c :: g) :: gs
      | [] => [[c]]

/-- UTF-8 encoding of a character as a list of byte values. -/
def utf8Bytes (c : Char) : List Nat :=
  let n := c.toNat
  if n < 0x80 then [n]
  else if n < 0x800 then [0xC0 + n / 64, 0x80 + n % 64]
  else if n < 0x10000 then [0xE0 + n / 4096, 0x80 + n / 64 % 64, 0x80 + n % 64]
  else [0xF0 + n / 262144, 0x80 + n / 4096 % 64, 0x80 + n / 64 % 64, 0x80 + n % 64]

/-- Hexadecimal digit value of a character, if it is one. -/
def hexVal (c : Char) : Option Nat :=
  if '0' ≤ c ∧ c ≤ '9' then some (c.toNat - '0'.toNat)
  else if 'a' ≤ c ∧ c ≤ 'f' then some (c.toNat - 'a'.toNat + 10)
  else if 'A' ≤ c ∧ c ≤ 'F' then some (c.toNat - 'A'.toNat + 10)
  else none

/-- Uppercase hexadecimal digit for a value below 16. -/
def hexDigit (n : Nat) : Char :=
  if n < 10 then Char.ofNat ('0'.toNat + n) else Char.ofNat ('A'.toNat + n - 10)

/-- Percent-encode one byte. -/
def pctByte (b : Nat) : Str := ['%', hexDigit (b / 16), hexDigit (b % 16)]

/-- Decode a UTF-8 byte list to characters, with explicit fuel (one unit
per byte suffices). Simplified model: overlong encodings are not rejected
and malformed bytes become U+FFFD; nothing the theorems evaluate leaves
plain ASCII. -/
def utf8DecodeF : Nat → List Nat → Str
  | 0, _ => []
  | _ + 1, [] => []
  | fuel + 1, b :: t =>
    if b < 0x80 then Char.ofNat b :: utf8DecodeF fuel t
    else if 0xC0 ≤ b ∧ b < 0xE0 then
      match t with
      | b2 :: t2 =>
        if 0x80 ≤ b2 ∧ b2 < 0xC0 then
          Char.ofNat ((b - 0xC0) * 64 + (b2 - 0x80)) :: utf8DecodeF fuel t2
        else Char.ofNat 0xFFFD :: utf8DecodeF fuel t
      | [] => [Char.ofNat 0xFFFD]
    else if 0xE0 ≤ b ∧ b < 0xF0 then
      match t with
      | b2 :: b3 :: t3 =>
        if (0x80 ≤ b2 ∧ b2 < 0xC0) ∧ (0x80 ≤ b3 ∧ b3 < 0xC0) then
          Char.ofNat ((b - 0xE0) * 4096 + (b2 - 0x80) * 64 + (b3 - 0x80)) :: utf8DecodeF fuel t3
        else Char.ofNat 0xFFFD :: utf8DecodeF fuel t
      | _ => [Char.ofNat 0xFFFD]
    else if 0xF0 ≤ b ∧ b < 0xF8 then
      match t with
      | b2 :: b3 :: b4 :: t4 =>
        if (0x80 ≤ b2 ∧ b2 < 0xC0) ∧ (0x80 ≤ b3 ∧ b3 < 0xC0) ∧ (0x80 ≤ b4 ∧ b4 < 0xC0) then
          Char.ofNat ((b - 0xF0) * 262144 + (b2 - 0x80) * 4096 + (b3 - 0x80) * 64 + (b4 - 0x80))
            :: utf8DecodeF fuel t4
        else Char.ofNat 0xFFFD :: utf8DecodeF fuel t
      | _ => [Char.ofNat 0xFFFD]
    else Char.ofNat 0xFFFD :: utf8DecodeF fuel t

/-- Percent-decode to bytes, `application/x-www-form-urlencoded` style:
`+` is a space, invalid percent escapes are literal. -/
def pctDecodeBytes : Str → List Nat
  | [] => []
  | '%' :: h :: l :: t =>
    match hexVal h, hexVal l with
    | some a, some b => (16 * a + b) :: pctDecodeBytes t
    | _, _ => 37 :: pctDecodeBytes (h :: l :: t)
  | '+' :: t => 32 :: pctDecodeBytes t
  | c :: t => utf8Bytes c ++ pctDecodeBytes t

/-- Decode a UTF-8 byte list to characters. -/
def utf8Decode (bs : List Nat) : Str := utf8DecodeF bs.length bs

/-- Decode a form-urlencoded component. -/
def formDecode (s : Str) : Str := utf8Decode (pctDecodeBytes s)

/-- Characters the form-urlencoded serializer leaves unescaped. -/
def formSafe (c : Char) : Bool :=
  c.isAlpha || c.isDigit || c = '*' || c = '-' || c = '.' || c = '_'

/-- Encode a form-urlencoded component (`URLSearchParams` serialization):
spaces become `+`, everything outside the safe set is percent-encoded
byte-wise. -/
def formEncode (s : Str) : Str :=
  s.flatMap fun c =>
    if formSafe c then [c]
    else if c = ' ' then ['+']
    else (utf8Bytes c).flatMap pctByte

/-- Characters `encodeURIComponent` leaves unescaped. -/
def uriComponentSafe (c : Char) : Bool :=
  c.isAlpha || c.isDigit || c = '-' || c = '_' || c = '.' || c = '!' ||
    c = '~' || c = '*' || c = Char.ofNat 39 || c = '(' || c = ')'

/-- `encodeURIComponent`. -/
def encodeURIComponent (s : Str) : Str :=
  s.flatMap fun c =>
    if uriComponentSafe c then [c] else (utf8Bytes c).flatMap pctByte

/-- Parse a raw query string into its key/value pairs (`URLSearchParams`):
split on `&`, drop empty pieces, split each piece at the first `=`,
form-decode both sides. -/
def paramsOf (q : Str) : List (Str × Str) :=
  ((splitOnChar '&' q).filter (· ≠ [])).map fun piece =>
    let p := splitFirst '=' piece
    (formDecode p.1, formDecode (p.2.getD []))

/-- Serialize key/value pairs back to a query string. -/
def serializeParams (l : List (Str × Str)) : Str :=
  ((l.map fun p => formEncode p.1 ++ '=' :: formEncode p.2).intersperse ['&']).flatten

/-- `URLSearchParams.set` on the pair list: replace the first binding of the
key (dropping later duplicates), or append a new binding at the end. -/
def setParamList (k v : Str) : List (Str × Str) → List (Str × Str)
  | [] => [(k, v)]
  | p :: t =>
    if p.1 = k then (k, v) :: t.filter (fun q => q.1 ≠ k)
    else p :: setParamList k v t

/-- Model of a parsed WHATWG `URL`. Simplified: the part before the query
is kept verbatim (no scheme/host case folding, no path dot-segment
removal — both are idempotent in the real class and the properties proved
here do not depend on them); the raw query is kept and only re-serialized
when the parameter list is mutated, as the live `URLSearchParams` view
does. -/
structure JsUrl where
  base : Str
  query : Option Str
  frag : Option Str

/-- Whether a pre-query prefix looks like an absolute URL:
`scheme://rest` with an alphabetic scheme and a non-empty remainder.
The real parser enforces more (it canonicalizes the host); every check it
adds is stable under the serializer, which is all the proofs rely on. -/
def validUrlBase (base : Str) : Bool :=
  match splitFirst ':' base with
  | (sch, some rest) =>
    (match sch with
     | c :: _ => c.isAlpha && sch.all fun c => c.isAlpha || c.isDigit || c = '+' || c = '-' || c = '.'
     | [] => false) &&
    (match rest with
     | '/' :: '/' :: h :: _ => decide (h ≠ '/') && decide (h ≠ '?') && decide (h ≠ '#')
     | _ => false)
  | (_, none) => false

/-- Model of `new URL(s)`: split off the fragment at the first `#`, the
query at the first `?` before it, and require the rest to be an absolute
URL; `none` models the thrown `TypeError`. -/
def parseJsUrl (s : Str) : Option JsUrl :=
  let pf := splitFirst '#' s
  let pq := splitFirst '?' pf.1
  if validUrlBase pq.1 then some ⟨pq.1, pq.2, pf.2⟩ else none

/-- `url.searchParams.has(k)`. -/
def JsUrl.hasParam (u : JsUrl) (k : Str) : Bool :=
  (paramsOf (u.query.getD [])).any (·.1 = k)

/-- `url.searchParams.set(k, v)`: mutation re-serializes the whole query. -/
def JsUrl.setParam (u : JsUrl) (k v : Str) : JsUrl :=
  { u with query := some (serializeParams (setParamList k v (paramsOf (u.query.getD [])))) }

/-- `url.toString()`. -/
def JsUrl.render (u : JsUrl) : Str :=
  u.base ++ (match u.query with | some q => '?' :: q | none => []) ++
    (match u.frag with | some f => '#' :: f | none => [])

/-- `DEFAULT_AZURE_API_VERSION` from the source. -/
def DEFAULT_AZURE_API_VERSION : Str := lit "2024-10-21"

/-- `buildAzureUrl` from the source; `Except.error` models the `TypeError`
thrown by the `URL` constructor on an unparsable URL. -/
def buildAzureUrl (baseUrl model : Str) : Except Str Str :=
  let normalized := normalizeBaseUrl baseUrl
  if isSubstr (lit "/chat/completions") normalized then
    match parseJsUrl normalized with
    | none => .error (lit "Invalid URL")
    | some parsed =>
      if parsed.hasParam (lit "api-version") then .ok parsed.render
      else .ok ((parsed.setParam (lit "api-version") DEFAULT_AZURE_API_VERSION).render)
  else
    let deployment := encodeURIComponent model
    let urlStr := normalized ++ lit "/openai/deployments/" ++ deployment ++ lit "/chat/completions"
    match parseJsUrl urlStr with
    | none => .error (lit "Invalid URL")
    | some url => .ok ((url.setParam (lit "api-version") DEFAULT_AZURE_API_VERSION).render)

end Translate

namespace Translate

/-- An outbound HTTP request as `fetch` receives it. The JSON body is kept
structured (the source passes it through `JSON.stringify`). -/
structure FetchReq where
  url : Str
  method : Str
  headers : List (Str × Str)
  body : Json

/-- An upstream HTTP response: its status, the value `await res.json()`
would produce, and the text `await res.text()` would produce. -/
structure FetchResp where
  status : Nat
  jsonBody : Json
  textBody : Str

/-- `response.ok`: status in the 2xx range. -/
def FetchResp.isOk (r : FetchResp) : Bool :=
  decide (200 ≤ r.status) && decide (r.status < 300)

/-- The network oracle: provider calls are deterministic functions of the
request under a fixed oracle, and each caller returns the list of requests
it actually issued. -/
abbrev Fetch := FetchReq → FetchResp

/-- `OpenAICompatibleOptions` from the source. -/
structure OpenAICompatibleOptions where
  text : Str
  sourceLang : Str
  targetLang : Str
  apiUrl : Str
  apiKey : Option Str := none
  model : Str
  extraHeaders : List (Str × Str) := []

/-- Find the first occurrence of a pattern substring, returning the parts
before and after it. -/
def splitSub (pat : Str) : Str → Option (Str × Str)
  | [] => if pat = [] then some ([], []) else none
  | c :: t =>
    if pat.isPrefixOf (c :: t) then some ([], (c :: t).drop pat.length)
    else
      match splitSub pat t with
      | some p => some (c :: p.1, p.2)
      | none => none

/-- Origin of an absolute URL (`scheme://host`), the part the two-argument
`new URL("/translate", endpoint)` keeps; `none` models the thrown
`TypeError` on an endpoint with no `scheme://` part. Simplified: the host
is taken verbatim up to the first `/`, `?` or `#`. -/
def urlOrigin (s : Str) : Option Str :=
  match splitSub (lit "://") s with
  | some (sch, rest) =>
    if sch ≠ [] ∧ rest ≠ [] then
      some (sch ++ lit "://" ++ rest.takeWhile fun c => ¬(c = '/' ∨ c = '?' ∨ c = '#'))
    else none
  | none => none

/-- `translateWithOpenAICompatible` from the source. Diagnostic logging of
the error body is omitted. -/
def translateWithOpenAICompatible (fetch : Fetch) (options : OpenAICompatibleOptions) :
    Except Str Str × List FetchReq :=
  let authHeaders :=
    if jsTruthyStr options.apiKey then
      [(lit "Authorization", lit "Bearer " ++ options.apiKey.getD [])]
    else []
  let req : FetchReq :=
    { url := options.apiUrl
      method := lit "POST"
      headers := (lit "Content-Type", lit "application/json") :: options.extraHeaders ++ authHeaders
      body := .obj
        [(lit "model", .str options.model),
         (lit "messages", .arr
           [.obj [(lit "role", .str (lit "system")),
                  (lit "content", .str (getSystemPrompt options.sourceLang options.targetLang))],
            .obj [(lit "role", .str (lit "user")),
                  (lit "content", .str options.text)]])] }
  let response := fetch req
  if response.isOk then
    (.ok (sanitizeTranslatedText (getOpenAIContent response.jsonBody)), [req])
  else if response.status = 429 then (.error (lit "请求过于频繁，请稍后再试。"), [req])
  else if response.status = 402 then (.error (lit "AI额度不足，请充值后再试。"), [req])
  else (.error (lit "翻译请求失败 (" ++ natToStr response.status ++ lit ")"), [req])

/-- `translateWithMicrosoft` from the source. -/
def translateWithMicrosoft (fetch : Fetch) (text sourceLang targetLang apiKey : Str)
    (baseUrl : Option Str) : Except Str Json × List FetchReq :=
  let from_ := if sourceLang = lit "auto" then [] else tableGetD msLangMap sourceLang sourceLang
  let toLang := tableGetD msLangMap targetLang targetLang
  let endpoint := normalizeBaseUrl (jsOrStr baseUrl (DEFAULT_PROVIDER_BASE_URLS .microsoft))
  match urlOrigin endpoint with
  | none => (.error (lit "Invalid URL"), [])
  | some origin =>
    let params :=
      [(lit "api-version", lit "3.0"), (lit "to", toLang)] ++
        (if from_ ≠ [] then [(lit "from", from_)] else [])
    let req : FetchReq :=
      { url := origin ++ lit "/translate?" ++ serializeParams params
        method := lit "POST"
        headers := [(lit "Ocp-Apim-Subscription-Key", apiKey),
                    (lit "Content-Type", lit "application/json")]
        body := .arr [.obj [(lit "Text", .str text)]] }
    let res := fetch req
    if res.isOk then
      (.ok (jsOr (jGet (jIdx0 (jGet (jIdx0 res.jsonBody) (lit "translations"))) (lit "text"))
        (.str [])), [req])
    else (.error (lit "Microsoft Translator 错误 (" ++ natToStr res.status ++ lit ")"), [req])

/-- `translateWithGoogle` from the source. -/
def translateWithGoogle (fetch : Fetch) (text sourceLang targetLang apiKey : Str) :
    Except Str Json × List FetchReq :=
  let target := tableGetD googleLangMap targetLang targetLang
  let source : Option Str :=
    if sourceLang = lit "auto" then none
    else some (tableGetD googleLangMap sourceLang sourceLang)
  let req : FetchReq :=
    { url := lit "https://translation.googleapis.com/language/translate/v2?key=" ++ apiKey
      method := lit "POST"
      headers := [(lit "Content-Type", lit "application/json")]
      body := .obj
        ([(lit "q", .str text), (lit "target", .str target), (lit "format", .str (lit "text"))] ++
          (if jsTruthyStr source then [(lit "source", .str (source.getD []))] else [])) }
  let res := fetch req
  if res.isOk then
    (.ok (jsOr
      (jGet (jIdx0 (jGet (jGet res.jsonBody (lit "data")) (lit "translations")))
        (lit "translatedText")) (.str [])), [req])
  else (.error (lit "Google Translate 错误 (" ++ natToStr res.status ++ lit ")"), [req])

/-- `translateWithGemini` from the source. -/
def translateWithGemini (fetch : Fetch) (text sourceLang targetLang apiKey model : Str)
    (baseUrl : Option Str) : Except Str Str × List FetchReq :=
  let base := normalizeGeminiBase baseUrl
  let req : FetchReq :=
    { url := base ++ lit "/models/" ++ model ++ lit ":generateContent?key=" ++ apiKey
      method := lit "POST"
      headers := [(lit "Content-Type", lit "application/json")]
      body := .obj
        [(lit "contents", .arr [.obj [(lit "parts", .arr [.obj [(lit "text", .str text)]])]]),
         (lit "systemInstruction", .obj
           [(lit "parts", .arr
             [.obj [(lit "text", .str (getSystemPrompt sourceLang targetLang))]])])] }
  let response := fetch req
  if response.isOk then
    (.ok (sanitizeTranslatedText (getGeminiContent response.jsonBody)), [req])
  else (.error (lit "Gemini 翻译失败 (" ++ natToStr response.status ++ lit ")"), [req])

/-- `translateWithAnthropic` from the source. -/
def translateWithAnthropic (fetch : Fetch) (text sourceLang targetLang apiKey model : Str)
    (baseUrl : Option Str) : Except Str Str × List FetchReq :=
  let url := normalizeAnthropicUrl baseUrl
  let req : FetchReq :=
    { url
      method := lit "POST"
      headers := [(lit "x-api-key", apiKey), (lit "anthropic-version", lit "2023-06-01"),
                  (lit "Content-Type", lit "application/json")]
      body := .obj
        [(lit "model", .str model), (lit "max_tokens", .num 2048),
         (lit "system", .str (getSystemPrompt sourceLang targetLang)),
         (lit "messages", .arr [.obj [(lit "role", .str (lit "user")),
                                      (lit "content", .str text)]])] }
  let response := fetch req
  if response.isOk then
    (.ok (sanitizeTranslatedText (getAnthropicContent response.jsonBody)), [req])
  else (.error (lit "Anthropic 翻译失败 (" ++ natToStr response.status ++ lit ")"), [req])

/-- `translateWithAzure` from the source. -/
def translateWithAzure (fetch : Fetch) (text sourceLang targetLang apiKey model : Str)
    (baseUrl : Option Str) : Except Str Str × List FetchReq :=
  if ¬ jsTruthyStr (baseUrl.map jsTrim) then (.error (lit "Azure OpenAI 需要配置 Base URL"), [])
  else
    match buildAzureUrl (baseUrl.getD []) model with
    | .error e => (.error e, [])
    | .ok apiUrl =>
      translateWithOpenAICompatible fetch
        { text, sourceLang, targetLang, apiUrl, apiKey := some apiKey, model
          extraHeaders := [(lit "api-key", apiKey)] }

/-- `translateWithDeepLX` from the source. -/
def translateWithDeepLX (fetch : Fetch) (text sourceLang targetLang : Str)
    (baseUrl apiKey : Option Str) : Except Str Json × List FetchReq :=
  let url := normalizeDeepLXUrl baseUrl
  let authHeaders :=
    if jsTruthyStr apiKey then [(lit "Authorization", lit "Bearer " ++ apiKey.getD [])] else []
  let req : FetchReq :=
    { url
      method := lit "POST"
      headers := (lit "Content-Type", lit "application/json") :: authHeaders
      body := .obj
        [(lit "text", .str text),
         (lit "source_lang", .str (if sourceLang = lit "auto" then lit "auto" else sourceLang)),
         (lit "target_lang", .str targetLang)] }
  let response := fetch req
  if response.isOk then (.ok (getDeepLXContent response.jsonBody), [req])
  else (.error (lit "DeepLX 翻译失败 (" ++ natToStr response.status ++ lit ")"), [req])

/-- `translateWithLovableDefaultService` from the source; `env` models
`Deno.env.get("LOVABLE_API_KEY")`. -/
def translateWithLovableDefaultService (env : Option Str) (fetch : Fetch)
    (text sourceLang targetLang : Str) : Except Str Str × List FetchReq :=
  if ¬ jsTruthyStr env then (.error (lit "DEFAULT_TRANSLATION_SERVICE_UNAVAILABLE"), [])
  else
    translateWithOpenAICompatible fetch
      { text, sourceLang, targetLang
        apiUrl := lit "https://ai.gateway.lovable.dev/v1/chat/completions"
        apiKey := env
        model := lit "google/gemini-3-flash-preview" }

end Translate

namespace Translate

/-- `MAX_TEXT_LENGTH` from the source. -/
def MAX_TEXT_LENGTH : Nat := 50000

/-- The parsed request body (`TranslateRequestBody` from the source).
The `text` field is kept as raw JSON because the handler type-checks it at
runtime; the remaining fields are optional strings (the claims never
exercise non-string values for them). -/
structure TranslateRequestBody where
  text : Json := .null
  sourceLang : Option Str := none
  targetLang : Option Str := none
  customApiKey : Option Str := none
  customBaseUrl : Option Str := none
  providerType : Option ProviderType := none
  model : Option Str := none

/-- The handler's HTTP response: either a 200 with `{translatedText}` or an
error status with `{error}`. -/
inductive ServeResult where
  | ok (translatedText : Json)
  | err (status : Nat) (message : Str)

/-- The validation prefix of the `serve` handler: the four early-return
checks, in source order. `MAX_TEXT_LENGTH.toLocaleString()` is modelled as
its default-locale rendering `"50,000"`. -/
def serveValidate (b : TranslateRequestBody) : Option ServeResult :=
  if ¬ jsTruthy b.text then some (.err 400 (lit "Missing text"))
  else if (match b.text with
           | .str s => decide (s.length > MAX_TEXT_LENGTH)
           | _ => true) then
    some (.err 413 (lit "Text exceeds maximum length of 50,000 characters"))
  else if jsTruthyStr b.sourceLang ∧ ¬ (b.sourceLang.getD []) ∈ VALID_LANGS then
    some (.err 400 (lit "Invalid source language"))
  else if jsTruthyStr b.targetLang ∧ ¬ (b.targetLang.getD []) ∈ VALID_LANGS then
    some (.err 400 (lit "Invalid target language"))
  else none

/-- The provider dispatch of the `serve` handler (the body of the `try`
block after validation), given the validated text string. -/
def dispatchTranslate (env : Option Str) (fetch : Fetch) (text : Str)
    (b : TranslateRequestBody) : Except Str Json × List FetchReq :=
  let src := jsOrStr b.sourceLang (lit "auto")
  let tgt := jsOrStr b.targetLang (lit "en")
  if b.providerType = none ∧ ¬ jsTruthyStr b.customApiKey ∧ ¬ jsTruthyStr b.customBaseUrl then
    let r := translateWithLovableDefaultService env fetch text src tgt
    (r.1.map Json.str, r.2)
  else
    let resolvedProvider := b.providerType.getD .openai
    let resolvedModel := resolveModel resolvedProvider b.model
    if resolvedProvider = .microsoft then
      if ¬ jsTruthyStr b.customApiKey then (.error (lit "Microsoft Translator 需要 API Key"), [])
      else translateWithMicrosoft fetch text src tgt (b.customApiKey.getD []) b.customBaseUrl
    else if resolvedProvider = .googleTranslate then
      if ¬ jsTruthyStr b.customApiKey then
        (.error (lit "Google Cloud Translation 需要 API Key"), [])
      else translateWithGoogle fetch text src tgt (b.customApiKey.getD [])
    else if resolvedProvider = .gemini then
      if ¬ jsTruthyStr b.customApiKey then (.error (lit "Gemini 需要 API Key"), [])
      else
        let r := translateWithGemini fetch text src tgt (b.customApiKey.getD []) resolvedModel
          b.customBaseUrl
        (r.1.map Json.str, r.2)
    else if resolvedProvider = .anthropic then
      if ¬ jsTruthyStr b.customApiKey then (.error (lit "Anthropic 需要 API Key"), [])
      else
        let r := translateWithAnthropic fetch text src tgt (b.customApiKey.getD []) resolvedModel
          b.customBaseUrl
        (r.1.map Json.str, r.2)
    else if resolvedProvider = .azure then
      if ¬ jsTruthyStr b.customApiKey then (.error (lit "Azure OpenAI 需要 API Key"), [])
      else
        let r := translateWithAzure fetch text src tgt (b.customApiKey.getD []) resolvedModel
          b.customBaseUrl
        (r.1.map Json.str, r.2)
    else if resolvedProvider = .deeplx then
      translateWithDeepLX fetch text src tgt b.customBaseUrl b.customApiKey
    else if resolvedProvider ∈ OPENAI_COMPATIBLE_PROVIDERS then
      let r := translateWithOpenAICompatible fetch
        { text, sourceLang := src, targetLang := tgt
          apiUrl := resolveOpenAICompatibleUrl resolvedProvider b.customBaseUrl
          apiKey := b.customApiKey, model := resolvedModel }
      (r.1.map Json.str, r.2)
    else
      let r := translateWithOpenAICompatible fetch
        { text, sourceLang := src, targetLang := tgt
          apiUrl := resolveOpenAICompatibleUrl .openai b.customBaseUrl
          apiKey := b.customApiKey, model := resolvedModel }
      (r.1.map Json.str, r.2)

/-- `toErrorMessage` from the source, specialized to thrown `Error`s whose
message is the carried string. -/
def toErrorMessage (m fallback : Str) : Str := if m ≠ [] then m else fallback

/-- The full `serve` handler on a parsed request body: validation, dispatch,
and the top-level catch that maps a thrown
`DEFAULT_TRANSLATION_SERVICE_UNAVAILABLE` to a 503 with guidance and every
other thrown error to a 500 with the error's message. The returned list is
the trace of outbound HTTP requests. -/
def serveHandler (env : Option Str) (fetch : Fetch) (b : TranslateRequestBody) :
    ServeResult × List FetchReq :=
  match serveValidate b with
  | some r => (r, [])
  | none =>
    let text := match b.text with | .str s => s | _ => []
    match dispatchTranslate env fetch text b with
    | (.ok j, calls) => (.ok j, calls)
    | (.error m, calls) =>
      let message := toErrorMessage m (lit "Unknown error")
      if message = lit "DEFAULT_TRANSLATION_SERVICE_UNAVAILABLE" then
        (.err 503 (lit "默认翻译服务暂不可用，请配置自定义提供商后重试"), calls)
      else (.err 500 message, calls)

end Translate

namespace Translate

/-- The user-facing message `translateWithOpenAICompatible` throws for a
non-2xx upstream status: the fixed rate-limited string for 429, the fixed
quota-exhausted string for 402, and the generic message carrying the
numeric status otherwise. -/
def ocErrorMessage (status : Nat) : Str :=
  if status = 429 then lit "请求过于频繁，请稍后再试。"
  else if status = 402 then lit "AI额度不足，请充值后再试。"
  else lit "翻译请求失败 (" ++ natToStr status ++ lit ")"

/-- A network oracle always answering 200 with a body that both the
OpenAI-compatible extractor and the DeepLX extractor read as the text
`"T"`; used to state that keyless DeepLX/OpenAI-compatible calls succeed. -/
def okFetch : Fetch := fun _ =>
  { status := 200
    jsonBody := .obj
      [(lit "choices", .arr [.obj [(lit "message", .obj [(lit "content", .str (lit "T"))])]]),
       (lit "translatedText", .str (lit "T"))]
    textBody := [] }

/-- Claim C5 as written: strip trailing slashes, then the three-way suffix
rule — stated from the spec's words, with no whitespace trimming and no
empty-input default. -/
def claimFiveNormalize (u : Str) : Str :=
  let s := stripTrailingSlashes u
  if endsWithL s (lit "/chat/completions") then s
  else if endsWithL s (lit "/v1") = true ∨ endsWithVNum s = true then
    s ++ lit "/chat/completions"
  else s ++ lit "/v1/chat/completions"

/-- Claim C5 amended to match the source: the input is also whitespace
trimmed, and an input that is empty after trimming and slash stripping
yields the default OpenAI endpoint. -/
def claimFiveNormalizeAmended (u : Str) : Str :=
  let s := stripTrailingSlashes (jsTrim u)
  if s = [] then lit "https://api.openai.com/v1/chat/completions"
  else if endsWithL s (lit "/chat/completions") then s
  else if endsWithL s (lit "/v1") = true ∨ endsWithVNum s = true then
    s ++ lit "/chat/completions"
  else s ++ lit "/v1/chat/completions"

end Translate

namespace Translate

lemma endsWithL_iff {s t : Str} : endsWithL s t = true ↔ t <:+ s := by
  unfold endsWithL
  rw [List.isPrefixOf_iff_prefix, List.reverse_prefix]

lemma endsWithL_of_suffix {s t : Str} (h : t <:+ s) : endsWithL s t = true :=
  endsWithL_iff.mpr h

lemma dropWhile_eq_self_of_head? {p : Char → Bool} {s : Str}
    (h : ∀ c, s.head? = some c → p c = false) : s.dropWhile p = s := by
  cases s with
  | nil => rfl
  | cons c t => rw [List.dropWhile_cons, h c rfl]; simp

lemma head?_dropWhile_false {p : Char → Bool} {l : Str} {c : Char}
    (h : (l.dropWhile p).head? = some c) : p c = false := by
  have := List.head?_dropWhile_not p l
  rw [h] at this
  exact this

lemma prefix_head? {pre x : Str} (hp : pre <+: x) (hne : pre ≠ []) : x.head? = pre.head? := by
  obtain ⟨t, rfl⟩ := hp
  exact List.head?_append_of_ne_nil pre hne

lemma stripTrailingSlashes_prefix_self (x : Str) : stripTrailingSlashes x <+: x := by
  unfold stripTrailingSlashes
  rw [← List.reverse_suffix, List.reverse_reverse]
  exact List.dropWhile_suffix _

lemma jsTrim_prefix_dropWhile (u : Str) : jsTrim u <+: u.dropWhile jsWs := by
  unfold jsTrim
  rw [← List.reverse_suffix, List.reverse_reverse]
  exact List.dropWhile_suffix _

lemma head?_jsTrim_ws {u : Str} {c : Char} (h : (jsTrim u).head? = some c) : jsWs c = false := by
  have hne : jsTrim u ≠ [] := by
    intro h0
    rw [h0] at h
    exact Option.noConfusion h
  have hp := prefix_head? (jsTrim_prefix_dropWhile u) hne
  rw [h] at hp
  exact head?_dropWhile_false hp

lemma head?_normalizeBaseUrl_ws {u : Str} {c : Char}
    (h : (normalizeBaseUrl u).head? = some c) : jsWs c = false := by
  unfold normalizeBaseUrl at h
  have hne : stripTrailingSlashes (jsTrim u) ≠ [] := by
    intro h0
    rw [h0] at h
    exact Option.noConfusion h
  have hp := prefix_head? (stripTrailingSlashes_prefix_self (jsTrim u)) hne
  rw [h] at hp
  exact head?_jsTrim_ws hp

lemma normalizeBaseUrl_eq_self {s : Str}
    (hh : ∀ c, s.head? = some c → jsWs c = false)
    (hl : ∀ c, s.getLast? = some c → jsWs c = false ∧ c ≠ '/') :
    normalizeBaseUrl s = s := by
  have trim1 : s.dropWhile jsWs = s := dropWhile_eq_self_of_head? hh
  have trim2 : s.reverse.dropWhile jsWs = s.reverse := by
    apply dropWhile_eq_self_of_head?
    intro c hc
    rw [List.head?_reverse] at hc
    exact (hl c hc).1
  have hj : jsTrim s = s := by unfold jsTrim; rw [trim1, trim2, List.reverse_reverse]
  have strip : s.reverse.dropWhile (· == '/') = s.reverse := by
    apply dropWhile_eq_self_of_head?
    intro c hc
    rw [List.head?_reverse] at hc
    simp [(hl c hc).2]
  unfold normalizeBaseUrl stripTrailingSlashes
  rw [hj, strip, List.reverse_reverse]

lemma getLast?_of_endsWith {s t : Str} (h : endsWithL s t = true) (hne : t ≠ []) :
    s.getLast? = t.getLast? := by
  obtain ⟨pre, rfl⟩ := endsWithL_iff.mp h
  exact List.getLast?_append_of_ne_nil pre hne

lemma ne_nil_of_endsWith {s t : Str} (h : endsWithL s t = true) (hne : t ≠ []) : s ≠ [] := by
  obtain ⟨pre, rfl⟩ := endsWithL_iff.mp h
  simp [hne]

/-- The characteristic fixed-point property behind the idempotence of the
three string URL normalizers: a string whose head is not whitespace and
which ends with the normalizer's target suffix is left untouched by
`normalizeBaseUrl`. -/
lemma normalizeBaseUrl_fix_of_endsWith {s t : Str} (h : endsWithL s t = true)
    (hne : t ≠ []) (hlast : ∀ c, t.getLast? = some c → jsWs c = false ∧ c ≠ '/')
    (hh : ∀ c, s.head? = some c → jsWs c = false) :
    normalizeBaseUrl s = s := by
  apply normalizeBaseUrl_eq_self hh
  intro c hc
  rw [getLast?_of_endsWith h hne] at hc
  exact hlast c hc

end Translate

namespace Translate

lemma suffix_chatCompletions_v1 :
    lit "/chat/completions" <:+ lit "/v1/chat/completions" :=
  List.isSuffixOf_iff_suffix.mp (by decide)

lemma ws_of_head_lit {t : Str} {a : Char} (ha : t.head? = some a) (hws : jsWs a = false) :
    ∀ c, t.head? = some c → jsWs c = false := by
  intro c hc
  rw [ha] at hc
  cases hc
  exact hws

lemma normOAI_ends (u : Str) :
    endsWithL (normalizeOpenAICompatibleUrl u) (lit "/chat/completions") = true := by
  simp only [normalizeOpenAICompatibleUrl]
  split_ifs with h0 hcc hv1 hvn
  · decide
  · exact hcc
  · exact endsWithL_of_suffix (List.suffix_append _ _)
  · exact endsWithL_of_suffix (List.suffix_append _ _)
  · exact endsWithL_of_suffix (suffix_chatCompletions_v1.trans (List.suffix_append _ _))

lemma head?_append_normalizeBaseUrl {u t : Str}
    (ht : ∀ c, t.head? = some c → jsWs c = false) :
    ∀ c, (normalizeBaseUrl u ++ t).head? = some c → jsWs c = false := by
  intro c hc
  cases hnb : normalizeBaseUrl u with
  | nil =>
    rw [hnb] at hc
    simp only [List.nil_append] at hc
    exact ht c hc
  | cons a s =>
    rw [hnb, List.head?_append_of_ne_nil _ (by simp), ← hnb] at hc
    exact head?_normalizeBaseUrl_ws hc

lemma normOAI_head {u : Str} :
    ∀ c, (normalizeOpenAICompatibleUrl u).head? = some c → jsWs c = false := by
  simp only [normalizeOpenAICompatibleUrl]
  split_ifs with h0 hcc hv1 hvn
  · exact ws_of_head_lit rfl (by decide)
  · intro c hc
    exact head?_normalizeBaseUrl_ws hc
  · exact head?_append_normalizeBaseUrl (ws_of_head_lit rfl (by decide))
  · exact head?_append_normalizeBaseUrl (ws_of_head_lit rfl (by decide))
  · exact head?_append_normalizeBaseUrl (ws_of_head_lit rfl (by decide))

lemma normOAI_fix {r : Str} (h3 : endsWithL r (lit "/chat/completions") = true)
    (hh : ∀ c, r.head? = some c → jsWs c = false) :
    normalizeOpenAICompatibleUrl r = r := by
  have h1 : normalizeBaseUrl r = r :=
    normalizeBaseUrl_fix_of_endsWith h3 (by decide) (by decide) hh
  have h2 : r ≠ [] := ne_nil_of_endsWith h3 (by decide)
  unfold normalizeOpenAICompatibleUrl
  simp [h1, h2, h3]

lemma normOAI_idem (u : Str) :
    normalizeOpenAICompatibleUrl (normalizeOpenAICompatibleUrl u) =
      normalizeOpenAICompatibleUrl u :=
  normOAI_fix (normOAI_ends u) normOAI_head

end Translate

namespace Translate

lemma normAnthropic_ends (x : Option Str) :
    endsWithL (normalizeAnthropicUrl x) (lit "/v1/messages") = true := by
  simp only [normalizeAnthropicUrl]
  split_ifs with h1 h2
  · exact h1
  · obtain ⟨p, hp⟩ := endsWithL_iff.mp h2
    apply endsWithL_of_suffix
    rw [← hp, List.append_assoc]
    refine ⟨p, ?_⟩
    rw [show lit "/v1" ++ lit "/messages" = lit "/v1/messages" from by decide]
  · exact endsWithL_of_suffix (List.suffix_append _ _)

lemma normAnthropic_head (x : Option Str) :
    ∀ c, (normalizeAnthropicUrl x).head? = some c → jsWs c = false := by
  simp only [normalizeAnthropicUrl]
  split_ifs with h1 h2
  · intro c hc
    exact head?_normalizeBaseUrl_ws hc
  · exact head?_append_normalizeBaseUrl (ws_of_head_lit rfl (by decide))
  · exact head?_append_normalizeBaseUrl (ws_of_head_lit rfl (by decide))

lemma normAnthropic_fix {r : Str} (h3 : endsWithL r (lit "/v1/messages") = true)
    (hh : ∀ c, r.head? = some c → jsWs c = false) :
    normalizeAnthropicUrl (some r) = r := by
  have h1 : normalizeBaseUrl r = r :=
    normalizeBaseUrl_fix_of_endsWith h3 (by decide) (by decide) hh
  have h2 : r ≠ [] := ne_nil_of_endsWith h3 (by decide)
  simp [normalizeAnthropicUrl, jsOrStr, h1, h2, h3]

lemma normAnthropic_idem (x : Option Str) :
    normalizeAnthropicUrl (some (normalizeAnthropicUrl x)) = normalizeAnthropicUrl x :=
  normAnthropic_fix (normAnthropic_ends x) (normAnthropic_head x)

lemma normDeepLX_ends (x : Option Str) :
    endsWithL (normalizeDeepLXUrl x) (lit "/translate") = true := by
  simp only [normalizeDeepLXUrl]
  split_ifs with h1
  · exact h1
  · exact endsWithL_of_suffix (List.suffix_append _ _)

lemma normDeepLX_head (x : Option Str) :
    ∀ c, (normalizeDeepLXUrl x).head? = some c → jsWs c = false := by
  simp only [normalizeDeepLXUrl]
  split_ifs with h1
  · intro c hc
    exact head?_normalizeBaseUrl_ws hc
  · exact head?_append_normalizeBaseUrl (ws_of_head_lit rfl (by decide))

lemma normDeepLX_fix {r : Str} (h3 : endsWithL r (lit "/translate") = true)
    (hh : ∀ c, r.head? = some c → jsWs c = false) :
    normalizeDeepLXUrl (some r) = r := by
  have h1 : normalizeBaseUrl r = r :=
    normalizeBaseUrl_fix_of_endsWith h3 (by decide) (by decide) hh
  have h2 : r ≠ [] := ne_nil_of_endsWith h3 (by decide)
  simp [normalizeDeepLXUrl, jsOrStr, h1, h2, h3]

lemma normDeepLX_idem (x : Option Str) :
    normalizeDeepLXUrl (some (normalizeDeepLXUrl x)) = normalizeDeepLXUrl x :=
  normDeepLX_fix (normDeepLX_ends x) (normDeepLX_head x)

end Translate

namespace Translate

lemma isAlpha_not_ws {c : Char} (h : c.isAlpha = true) : jsWs c = false := by
  by_contra hws
  have hws' : jsWs c = true := by revert hws; cases jsWs c <;> simp
  have hw : (c = ' ' || c = '\t' || c = '\r' || c = '\n') = true := hws'
  simp only [Bool.or_eq_true, decide_eq_true_eq] at hw
  rcases hw with ((rfl | rfl) | rfl) | rfl <;> revert h <;> decide

lemma splitFirst_not_mem {sep : Char} {s : Str} (h : sep ∉ s) : splitFirst sep s = (s, none) := by
  induction s with
  | nil => rfl
  | cons c t ih =>
    have hne : c ≠ sep := by rintro rfl; exact h (List.mem_cons_self _ _)
    have ht : sep ∉ t := fun hm => h (List.mem_cons_of_mem _ hm)
    simp [splitFirst, hne, ih ht]

lemma splitFirst_append {sep : Char} {a : Str} (r : Str) (h : sep ∉ a) :
    splitFirst sep (a ++ sep :: r) = (a, some r) := by
  induction a with
  | nil => simp [splitFirst]
  | cons c t ih =>
    have hne : c ≠ sep := by rintro rfl; exact h (List.mem_cons_self _ _)
    have ht : sep ∉ t := fun hm => h (List.mem_cons_of_mem _ hm)
    simp [splitFirst, hne, ih ht]

lemma splitFirst_eq_some {sep : Char} {s a r : Str} (h : splitFirst sep s = (a, some r)) :
    s = a ++ sep :: r := by
  induction s generalizing a with
  | nil => simp [splitFirst] at h
  | cons c t ih =>
    by_cases hc : c = sep
    · subst hc
      simp [splitFirst] at h
      obtain ⟨rfl, rfl⟩ := h
      rfl
    · simp only [splitFirst, if_neg hc] at h
      cases hp : splitFirst sep t with
      | mk a2 o =>
        rw [hp] at h
        cases o with
        | none => simp at h
        | some r2 =>
          simp only [Prod.mk.injEq, Option.some.injEq] at h
          obtain ⟨h1, h2⟩ := h
          subst h2
          rw [← h1, ih hp, List.cons_append]

lemma validUrlBase_head {s : Str} (h : validUrlBase s = true) :
    ∃ c, s.head? = some c ∧ c.isAlpha = true := by
  unfold validUrlBase at h
  cases hq : splitFirst ':' s with
  | mk sch o =>
    rw [hq] at h
    cases o with
    | none => simp at h
    | some rest =>
      cases sch with
      | nil => simp at h
      | cons c t =>
        simp only [Bool.and_eq_true] at h
        have hca : c.isAlpha = true := by
          have h1 := h.1
          simp only [Bool.and_eq_true] at h1
          exact h1.1
        have hs := splitFirst_eq_some hq
        exact ⟨c, by rw [hs]; rfl, hca⟩

lemma mem_of_mem_normalizeBaseUrl {c : Char} {s : Str} (h : c ∈ normalizeBaseUrl s) : c ∈ s := by
  unfold normalizeBaseUrl stripTrailingSlashes at h
  rw [List.mem_reverse] at h
  have h1 := List.Sublist.mem h (List.dropWhile_sublist _)
  rw [List.mem_reverse] at h1
  unfold jsTrim at h1
  rw [List.mem_reverse] at h1
  have h2 := List.Sublist.mem h1 (List.dropWhile_sublist _)
  rw [List.mem_reverse] at h2
  exact List.Sublist.mem h2 (List.dropWhile_sublist _)

lemma isSubstr_iff {n h : Str} : isSubstr n h = true ↔ n <:+: h := by
  induction h with
  | nil =>
    simp only [isSubstr, List.isEmpty_iff]
    constructor
    · rintro rfl; exact List.infix_rfl
    · intro hi; exact List.eq_nil_of_infix_nil hi
  | cons c t ih =>
    simp only [isSubstr, Bool.or_eq_true, List.isPrefixOf_iff_prefix, ih,
      List.infix_cons_iff]

lemma char_toNat_lt (c : Char) : c.toNat < 1114112 := by
  have h1 : c.toNat = c.val.toNat := rfl
  rcases c.valid with h | h <;> omega

lemma utf8Bytes_lt {c : Char} : ∀ b ∈ utf8Bytes c, b < 256 := by
  intro b hb
  have hc := char_toNat_lt c
  simp only [utf8Bytes] at hb
  split_ifs at hb <;> simp at hb <;> omega

lemma hexDigit_ne_mark {n : Nat} (h16 : n < 16) : hexDigit n ≠ '?' ∧ hexDigit n ≠ '#' := by
  interval_cases n <;> decide

lemma mem_encodeURIComponent {m : Str} {c : Char} (h : c ∈ encodeURIComponent m) :
    c ≠ '?' ∧ c ≠ '#' := by
  unfold encodeURIComponent at h
  rw [List.mem_flatMap] at h
  obtain ⟨a, _, hc⟩ := h
  by_cases hsafe : uriComponentSafe a = true
  · rw [if_pos hsafe] at hc
    simp at hc
    subst hc
    constructor <;> rintro rfl <;> revert hsafe <;> decide
  · rw [if_neg hsafe] at hc
    rw [List.mem_flatMap] at hc
    obtain ⟨b, hb, hcb⟩ := hc
    have hblt := utf8Bytes_lt b hb
    unfold pctByte at hcb
    simp at hcb
    rcases hcb with rfl | rfl | rfl
    · decide
    · exact hexDigit_ne_mark (by omega)
    · exact hexDigit_ne_mark (by omega)

end Translate

namespace Translate

lemma buildAzure_ok_self {base m : Str} (hq : '?' ∉ base) (hf : '#' ∉ base)
    (hvb : validUrlBase base = true)
    (hsub : isSubstr (lit "/chat/completions")
      (base ++ '?' :: lit "api-version=2024-10-21") = true) :
    buildAzureUrl (base ++ '?' :: lit "api-version=2024-10-21") m =
      .ok (base ++ '?' :: lit "api-version=2024-10-21") := by
  obtain ⟨a, ha, halpha⟩ := validUrlBase_head hvb
  have hbne : base ≠ [] := by
    intro h0
    rw [h0] at ha
    exact Option.noConfusion ha
  have hnb : normalizeBaseUrl (base ++ '?' :: lit "api-version=2024-10-21") =
      base ++ '?' :: lit "api-version=2024-10-21" := by
    apply normalizeBaseUrl_eq_self
    · intro c hc2
      rw [List.head?_append_of_ne_nil base hbne, ha] at hc2
      cases hc2
      exact isAlpha_not_ws halpha
    · intro c hc2
      rw [List.getLast?_append_of_ne_nil base (by simp)] at hc2
      rw [show ('?' :: lit "api-version=2024-10-21").getLast? = some '1' from rfl] at hc2
      cases hc2
      decide
  have hnf : '#' ∉ base ++ '?' :: lit "api-version=2024-10-21" := by
    rw [List.mem_append]
    rintro (hm | hm)
    · exact hf hm
    · revert hm
      decide
  have hparse : parseJsUrl (base ++ '?' :: lit "api-version=2024-10-21") =
      some ⟨base, some (lit "api-version=2024-10-21"), none⟩ := by
    simp only [parseJsUrl, splitFirst_not_mem hnf, splitFirst_append _ hq, if_pos hvb]
  have hhas : JsUrl.hasParam ⟨base, some (lit "api-version=2024-10-21"), none⟩
      (lit "api-version") = true := rfl
  simp only [buildAzureUrl, hnb, hsub, if_true, hparse, hhas, JsUrl.render]
  simp

lemma buildAzureUrl_idem_of_no_query_frag (u m : Str) (hq : '?' ∉ u) (hf : '#' ∉ u) :
    (buildAzureUrl u m).bind (fun v => buildAzureUrl v m) = buildAzureUrl u m := by
  have hqn : '?' ∉ normalizeBaseUrl u := fun hm => hq (mem_of_mem_normalizeBaseUrl hm)
  have hfn : '#' ∉ normalizeBaseUrl u := fun hm => hf (mem_of_mem_normalizeBaseUrl hm)
  by_cases hsub : isSubstr (lit "/chat/completions") (normalizeBaseUrl u) = true
  · have hparse : parseJsUrl (normalizeBaseUrl u) =
        if validUrlBase (normalizeBaseUrl u) then some ⟨normalizeBaseUrl u, none, none⟩
        else none := by
      simp only [parseJsUrl, splitFirst_not_mem hfn, splitFirst_not_mem hqn]
    by_cases hvb : validUrlBase (normalizeBaseUrl u) = true
    · have hhasf : JsUrl.hasParam ⟨normalizeBaseUrl u, none, none⟩ (lit "api-version") =
          false := rfl
      have hset : JsUrl.setParam ⟨normalizeBaseUrl u, none, none⟩ (lit "api-version")
          DEFAULT_AZURE_API_VERSION =
          ⟨normalizeBaseUrl u, some (lit "api-version=2024-10-21"), none⟩ := rfl
      have h1 : buildAzureUrl u m =
          .ok (normalizeBaseUrl u ++ '?' :: lit "api-version=2024-10-21") := by
        simp only [buildAzureUrl, hsub, if_true, hparse, if_pos hvb, hhasf, hset, JsUrl.render]
        simp
      rw [h1]
      simp only [Except.bind]
      exact buildAzure_ok_self hqn hfn hvb
        (isSubstr_iff.mpr ((isSubstr_iff.mp hsub).trans (List.prefix_append _ _).isInfix))
    · have h1 : buildAzureUrl u m = .error (lit "Invalid URL") := by
        simp only [buildAzureUrl, hsub, if_true, hparse, if_neg hvb]
      rw [h1]
      simp only [Except.bind]
  · have hqU : '?' ∉ normalizeBaseUrl u ++ lit "/openai/deployments/" ++
        encodeURIComponent m ++ lit "/chat/completions" := by
      intro hm
      rcases List.mem_append.mp hm with hm | hm
      · rcases List.mem_append.mp hm with hm | hm
        · rcases List.mem_append.mp hm with hm | hm
          · exact hqn hm
          · revert hm
            decide
        · exact (mem_encodeURIComponent hm).1 rfl
      · revert hm
        decide
    have hfU : '#' ∉ normalizeBaseUrl u ++ lit "/openai/deployments/" ++
        encodeURIComponent m ++ lit "/chat/completions" := by
      intro hm
      rcases List.mem_append.mp hm with hm | hm
      · rcases List.mem_append.mp hm with hm | hm
        · rcases List.mem_append.mp hm with hm | hm
          · exact hfn hm
          · revert hm
            decide
        · exact (mem_encodeURIComponent hm).2 rfl
      · revert hm
        decide
    have hparse : parseJsUrl (normalizeBaseUrl u ++ lit "/openai/deployments/" ++
        encodeURIComponent m ++ lit "/chat/completions") =
        if validUrlBase (normalizeBaseUrl u ++ lit "/openai/deployments/" ++
          encodeURIComponent m ++ lit "/chat/completions") then
          some ⟨normalizeBaseUrl u ++ lit "/openai/deployments/" ++
            encodeURIComponent m ++ lit "/chat/completions", none, none⟩
        else none := by
      simp only [parseJsUrl, splitFirst_not_mem hfU, splitFirst_not_mem hqU]
    by_cases hvb : validUrlBase (normalizeBaseUrl u ++ lit "/openai/deployments/" ++
        encodeURIComponent m ++ lit "/chat/completions") = true
    · have hset : JsUrl.setParam ⟨normalizeBaseUrl u ++ lit "/openai/deployments/" ++
          encodeURIComponent m ++ lit "/chat/completions", none, none⟩ (lit "api-version")
          DEFAULT_AZURE_API_VERSION =
          ⟨normalizeBaseUrl u ++ lit "/openai/deployments/" ++ encodeURIComponent m ++
            lit "/chat/completions", some (lit "api-version=2024-10-21"), none⟩ := rfl
      have h1 : buildAzureUrl u m =
          .ok ((normalizeBaseUrl u ++ lit "/openai/deployments/" ++ encodeURIComponent m ++
            lit "/chat/completions") ++ '?' :: lit "api-version=2024-10-21") := by
        simp only [buildAzureUrl, hsub, if_false, hparse, if_pos hvb, hset, JsUrl.render]
        simp
      rw [h1]
      simp only [Except.bind]
      exact buildAzure_ok_self hqU hfU hvb
        (isSubstr_iff.mpr (((List.suffix_append _ _).isInfix).trans
          (List.prefix_append _ _).isInfix))
    · have h1 : buildAzureUrl u m = .error (lit "Invalid URL") := by
        simp only [buildAzureUrl, hsub, if_false, hparse, if_neg hvb]
        simp
      rw [h1]
      simp only [Except.bind]

end Translate

namespace Translate

/-- C5, counterexample: the claim's description misses the empty-input
default branch (shown at the input `""`) and the whitespace trimming
(shown at the input `"x "`), so the normalizer disagrees with the claim's
stated rule on both inputs. -/
theorem claim5_counterexample :
    normalizeOpenAICompatibleUrl (lit "") ≠ claimFiveNormalize (lit "") ∧
      normalizeOpenAICompatibleUrl (lit "x ") ≠ claimFiveNormalize (lit "x ") := by
  constructor <;> decide

/-- C5, amended: for every base URL string, the OpenAI-compatible URL
normalizer first trims whitespace and strips trailing slashes; if the
result is empty it returns the default OpenAI endpoint; otherwise if it
ends in `/chat/completions` it is returned unchanged; else if it ends in
`/v1` or `/v<N>` for a digit sequence `N`, `/chat/completions` is
appended; otherwise `/v1/chat/completions` is appended. -/
theorem claim5_normalize_openai_url (u : Str) :
    normalizeOpenAICompatibleUrl u = claimFiveNormalizeAmended u := by
  simp only [normalizeOpenAICompatibleUrl, claimFiveNormalizeAmended, normalizeBaseUrl,
    DEFAULT_PROVIDER_BASE_URLS]
  split_ifs <;> simp_all

/-- C5 witness: the amended normalization rule evaluated at a concrete URL. -/
theorem claim5_witness :
    normalizeOpenAICompatibleUrl (lit "https://h.io/v2/") =
      claimFiveNormalizeAmended (lit "https://h.io/v2/") ∧
      normalizeOpenAICompatibleUrl (lit "https://h.io/v2/") =
        lit "https://h.io/v2/chat/completions" :=
  ⟨claim5_normalize_openai_url (lit "https://h.io/v2/"), by decide⟩

end Translate

namespace Translate

/-- C4, counterexample: the Azure URL builder is not idempotent. At the
base URL `https://x.com/?q=/chat/completions#z` (model held fixed at
`gpt-4o-mini`) the first application percent-encodes the query, so the
literal `/chat/completions` is no longer found, and the second application
appends the deployment path into the fragment. -/
theorem claim4_counterexample :
    buildAzureUrl (lit "https://x.com/?q=/chat/completions#z") (lit "gpt-4o-mini") =
      .ok (lit "https://x.com/?q=%2Fchat%2Fcompletions&api-version=2024-10-21#z") ∧
    buildAzureUrl (lit "https://x.com/?q=%2Fchat%2Fcompletions&api-version=2024-10-21#z")
      (lit "gpt-4o-mini") =
      .ok (lit "https://x.com/?q=%2Fchat%2Fcompletions&api-version=2024-10-21#z/openai/deployments/gpt-4o-mini/chat/completions") ∧
    (buildAzureUrl (lit "https://x.com/?q=/chat/completions#z") (lit "gpt-4o-mini")).bind
      (fun v => buildAzureUrl v (lit "gpt-4o-mini")) ≠
      buildAzureUrl (lit "https://x.com/?q=/chat/completions#z") (lit "gpt-4o-mini") := by
  refine ⟨rfl, rfl, ?_⟩
  intro h
  rw [show buildAzureUrl (lit "https://x.com/?q=/chat/completions#z") (lit "gpt-4o-mini") =
    .ok (lit "https://x.com/?q=%2Fchat%2Fcompletions&api-version=2024-10-21#z") from rfl] at h
  simp only [Except.bind] at h
  rw [show buildAzureUrl (lit "https://x.com/?q=%2Fchat%2Fcompletions&api-version=2024-10-21#z")
    (lit "gpt-4o-mini") =
    .ok (lit "https://x.com/?q=%2Fchat%2Fcompletions&api-version=2024-10-21#z/openai/deployments/gpt-4o-mini/chat/completions") from rfl] at h
  injection h with h2
  revert h2
  decide

/-- C4, amended: the OpenAI-compatible, Anthropic, and DeepLX URL
normalizers are idempotent on every input string; the Azure URL builder
(model held fixed) is idempotent for base URLs that contain no `?` and no
`#` (it can fail to be idempotent when `/chat/completions` occurs in a
query or fragment, see the counterexample). -/
theorem claim4_normalizers_idempotent :
    (∀ u : Str, normalizeOpenAICompatibleUrl (normalizeOpenAICompatibleUrl u) =
      normalizeOpenAICompatibleUrl u) ∧
    (∀ x : Option Str, normalizeAnthropicUrl (some (normalizeAnthropicUrl x)) =
      normalizeAnthropicUrl x) ∧
    (∀ x : Option Str, normalizeDeepLXUrl (some (normalizeDeepLXUrl x)) =
      normalizeDeepLXUrl x) ∧
    (∀ u m : Str, '?' ∉ u → '#' ∉ u →
      (buildAzureUrl u m).bind (fun v => buildAzureUrl v m) = buildAzureUrl u m) :=
  ⟨normOAI_idem, normAnthropic_idem, normDeepLX_idem, buildAzureUrl_idem_of_no_query_frag⟩

/-- C4 witness: the amended theorem instantiated at concrete URLs, with the
Azure hypotheses discharged at `https://res.azure.com/inst`. -/
theorem claim4_witness :
    normalizeOpenAICompatibleUrl (normalizeOpenAICompatibleUrl (lit "https://h.io/")) =
      normalizeOpenAICompatibleUrl (lit "https://h.io/") ∧
    (buildAzureUrl (lit "https://res.azure.com/inst") (lit "gpt-4o-mini")).bind
      (fun v => buildAzureUrl v (lit "gpt-4o-mini")) =
      buildAzureUrl (lit "https://res.azure.com/inst") (lit "gpt-4o-mini") :=
  ⟨claim4_normalizers_idempotent.1 (lit "https://h.io/"),
    claim4_normalizers_idempotent.2.2.2 (lit "https://res.azure.com/inst")
      (lit "gpt-4o-mini") (by decide) (by decide)⟩

end Translate

namespace Translate

/-- C7: `resolveModel` returns the trimmed requested model when its trim is
non-empty; with no requested model it returns each provider's default from
the defaults table, falling back to `gpt-4o-mini` for the three providers
without a table entry; and an all-whitespace request behaves like no
request. -/
theorem claim7_resolve_model :
    (∀ (p : ProviderType) (m : Str), jsTrim m ≠ [] → resolveModel p (some m) = jsTrim m) ∧
    (resolveModel .openai none = lit "gpt-4o-mini" ∧
      resolveModel .gemini none = lit "gemini-2.5-flash" ∧
      resolveModel .anthropic none = lit "claude-sonnet-4-20250514" ∧
      resolveModel .azure none = lit "gpt-4o-mini" ∧
      resolveModel .ollama none = lit "llama3" ∧
      resolveModel .deepseek none = lit "deepseek-chat" ∧
      resolveModel .qwen none = lit "qwen-turbo" ∧
      resolveModel .custom none = lit "gpt-4o-mini" ∧
      resolveModel .deeplx none = lit "gpt-4o-mini" ∧
      resolveModel .microsoft none = lit "gpt-4o-mini" ∧
      resolveModel .googleTranslate none = lit "gpt-4o-mini") ∧
    (∀ p : ProviderType, resolveModel p (some (lit "custom-model")) = lit "custom-model") ∧
    (∀ (p : ProviderType) (m : Str), jsTrim m = [] →
      resolveModel p (some m) = resolveModel p none) := by
  refine ⟨?_, by decide, ?_, ?_⟩
  · intro p m hm
    simp [resolveModel, hm]
  · intro p
    cases p <;> decide
  · intro p m hm
    simp [resolveModel, hm]

/-- C7 witness: a padded requested model resolves to its trimmed form. -/
theorem claim7_witness :
    jsTrim (lit " custom-model ") ≠ [] ∧
      resolveModel .openai (some (lit " custom-model ")) = jsTrim (lit " custom-model ") :=
  ⟨by decide, claim7_resolve_model.1 .openai (lit " custom-model ") (by decide)⟩

/-- C8: the OpenAI-compatible extraction pipeline on
`{choices:[{message:{content:"**Bold** text"}}]}` yields exactly
`"Bold text"`, and the sanitizer strips bold, italic, line-leading
headers, line-leading bullets, and inline code spans. -/
theorem claim8_markdown_stripping :
    sanitizeTranslatedText (getOpenAIContent (.obj [(lit "choices", .arr [.obj [(lit "message",
      .obj [(lit "content", .str (lit "**Bold** text"))])]])])) = lit "Bold text" ∧
    sanitizeTranslatedText (lit "**B** *i*\n# Head\n- item\n`code` x") =
      lit "B i\nHead\nitem\ncode x" := by
  constructor <;> decide

end Translate

namespace Translate

/-- C9: the DeepLX extractor returns each of the four response fields when
present alone with a non-empty string value; with several present the
precedence is `translatedText`, `data`, `translation`, `text`; and with
none present the result is the empty string. -/
theorem claim9_deeplx_extractor :
    (∀ s : Str, s ≠ [] →
      getDeepLXContent (.obj [(lit "translatedText", .str s)]) = .str s ∧
      getDeepLXContent (.obj [(lit "data", .str s)]) = .str s ∧
      getDeepLXContent (.obj [(lit "translation", .str s)]) = .str s ∧
      getDeepLXContent (.obj [(lit "text", .str s)]) = .str s) ∧
    (∀ a b c d : Str,
      getDeepLXContent (.obj [(lit "translatedText", .str a), (lit "data", .str b),
        (lit "translation", .str c), (lit "text", .str d)]) =
        .str (if a ≠ [] then a else if b ≠ [] then b else if c ≠ [] then c else d)) ∧
    getDeepLXContent (.obj []) = .str [] := by
  refine ⟨?_, ?_, rfl⟩
  · intro s hs
    refine ⟨?_, ?_, ?_, ?_⟩
    · have g1 : jGet (Json.obj [(lit "translatedText", Json.str s)]) (lit "translatedText") =
          Json.str s := rfl
      simp [getDeepLXContent, jsObjLike, g1, jsOr, jsTruthy, hs]
    · have g1 : jGet (Json.obj [(lit "data", Json.str s)]) (lit "translatedText") =
          Json.null := rfl
      have g2 : jGet (Json.obj [(lit "data", Json.str s)]) (lit "data") = Json.str s := rfl
      simp [getDeepLXContent, jsObjLike, g1, g2, jsOr, jsTruthy, hs]
    · have g1 : jGet (Json.obj [(lit "translation", Json.str s)]) (lit "translatedText") =
          Json.null := rfl
      have g2 : jGet (Json.obj [(lit "translation", Json.str s)]) (lit "data") =
          Json.null := rfl
      have g3 : jGet (Json.obj [(lit "translation", Json.str s)]) (lit "translation") =
          Json.str s := rfl
      simp [getDeepLXContent, jsObjLike, g1, g2, g3, jsOr, jsTruthy, hs]
    · have g1 : jGet (Json.obj [(lit "text", Json.str s)]) (lit "translatedText") =
          Json.null := rfl
      have g2 : jGet (Json.obj [(lit "text", Json.str s)]) (lit "data") = Json.null := rfl
      have g3 : jGet (Json.obj [(lit "text", Json.str s)]) (lit "translation") =
          Json.null := rfl
      have g4 : jGet (Json.obj [(lit "text", Json.str s)]) (lit "text") = Json.str s := rfl
      simp [getDeepLXContent, jsObjLike, g1, g2, g3, g4, jsOr, jsTruthy, hs]
  · intro a b c d
    have g1 : jGet (Json.obj [(lit "translatedText", Json.str a), (lit "data", Json.str b),
        (lit "translation", Json.str c), (lit "text", Json.str d)]) (lit "translatedText") =
        Json.str a := rfl
    have g2 : jGet (Json.obj [(lit "translatedText", Json.str a), (lit "data", Json.str b),
        (lit "translation", Json.str c), (lit "text", Json.str d)]) (lit "data") =
        Json.str b := rfl
    have g3 : jGet (Json.obj [(lit "translatedText", Json.str a), (lit "data", Json.str b),
        (lit "translation", Json.str c), (lit "text", Json.str d)]) (lit "translation") =
        Json.str c := rfl
    have g4 : jGet (Json.obj [(lit "translatedText", Json.str a), (lit "data", Json.str b),
        (lit "translation", Json.str c), (lit "text", Json.str d)]) (lit "text") =
        Json.str d := rfl
    simp only [getDeepLXContent, jsObjLike, g1, g2, g3, g4, jsOr, jsTruthy]
    split_ifs <;> simp_all

/-- C9 witness: the precedence instance with all four fields present and
the single-field instance at a concrete string. -/
theorem claim9_witness :
    getDeepLXContent (.obj [(lit "translation", .str (lit "hi"))]) = .str (lit "hi") ∧
      getDeepLXContent (.obj [(lit "translatedText", .str (lit "a")), (lit "data", .str (lit "b")),
        (lit "translation", .str (lit "c")), (lit "text", .str (lit "d"))]) =
        .str (if lit "a" ≠ [] then lit "a" else if lit "b" ≠ [] then lit "b"
          else if lit "c" ≠ [] then lit "c" else lit "d") :=
  ⟨(claim9_deeplx_extractor.1 (lit "hi") (by decide)).2.2.1,
    claim9_deeplx_extractor.2.1 (lit "a") (lit "b") (lit "c") (lit "d")⟩

/-- C10: a request whose `text` is present and truthy but not a string is
rejected with HTTP 413 and the same "exceeds maximum length" message as an
oversized string, before any network call, rather than with a 400. -/
theorem claim10_nonstring_text (b : TranslateRequestBody) (ht : jsTruthy b.text = true)
    (hns : b.text.isStr = false) :
    ∀ (env : Option Str) (fetch : Fetch),
      serveHandler env fetch b =
        (.err 413 (lit "Text exceeds maximum length of 50,000 characters"), []) := by
  intro env fetch
  have hv : serveValidate b =
      some (.err 413 (lit "Text exceeds maximum length of 50,000 characters")) := by
    unfold serveValidate
    cases hbt : b.text <;> simp_all [Json.isStr, jsTruthy]
  simp [serveHandler, hv]

/-- C10 witness: a numeric `text` value is answered with the 413 response. -/
theorem claim10_witness :
    serveHandler none (fun _ => ⟨200, .null, []⟩) { text := .num 5 } =
      (.err 413 (lit "Text exceeds maximum length of 50,000 characters"), []) :=
  claim10_nonstring_text { text := .num 5 } rfl rfl none _

end Translate

namespace Translate

lemma serveHandler_calls (env : Option Str) (fetch : Fetch) (b : TranslateRequestBody)
    (hv : serveValidate b = none) :
    (serveHandler env fetch b).2 =
      (dispatchTranslate env fetch (match b.text with | .str s => s | _ => []) b).2 := by
  simp only [serveHandler, hv]
  cases hd : dispatchTranslate env fetch (match b.text with | .str s => s | _ => []) b with
  | mk r calls =>
    cases r with
    | ok j => rfl
    | error m =>
      simp only []
      split_ifs <;> rfl

lemma serveHandler_res_ok {env : Option Str} {fetch : Fetch} {b : TranslateRequestBody} {j : Json}
    (hv : serveValidate b = none)
    (hd : (dispatchTranslate env fetch (match b.text with | .str s => s | _ => []) b).1 = .ok j) :
    (serveHandler env fetch b).1 = .ok j := by
  simp only [serveHandler, hv]
  cases hD : dispatchTranslate env fetch (match b.text with | .str s => s | _ => []) b with
  | mk r calls =>
    rw [hD] at hd
    cases r with
    | ok j2 => cases hd; rfl
    | error m => exact absurd hd (by simp)

lemma serveHandler_res_error {env : Option Str} {fetch : Fetch} {b : TranslateRequestBody}
    {m : Str} (hv : serveValidate b = none)
    (hd : (dispatchTranslate env fetch (match b.text with | .str s => s | _ => []) b).1 =
      .error m)
    (hm : m ≠ []) (hms : m ≠ lit "DEFAULT_TRANSLATION_SERVICE_UNAVAILABLE") :
    (serveHandler env fetch b).1 = .err 500 m := by
  simp only [serveHandler, hv]
  cases hD : dispatchTranslate env fetch (match b.text with | .str s => s | _ => []) b with
  | mk r calls =>
    rw [hD] at hd
    cases r with
    | ok j2 => exact absurd hd (by simp)
    | error m2 =>
      cases hd
      simp only [toErrorMessage, if_pos hm, if_neg hms]

lemma serveHandler_error {env : Option Str} {fetch : Fetch} {b : TranslateRequestBody}
    {m : Str} {calls : List FetchReq} (hv : serveValidate b = none)
    (hd : dispatchTranslate env fetch (match b.text with | .str s => s | _ => []) b =
      (.error m, calls))
    (hm : m ≠ []) (hms : m ≠ lit "DEFAULT_TRANSLATION_SERVICE_UNAVAILABLE") :
    serveHandler env fetch b = (.err 500 m, calls) := by
  simp only [serveHandler, hv, hd, toErrorMessage, if_pos hm, if_neg hms]

lemma serveHandler_unavailable {env : Option Str} {fetch : Fetch} {b : TranslateRequestBody}
    {calls : List FetchReq} (hv : serveValidate b = none)
    (hd : dispatchTranslate env fetch (match b.text with | .str s => s | _ => []) b =
      (.error (lit "DEFAULT_TRANSLATION_SERVICE_UNAVAILABLE"), calls)) :
    serveHandler env fetch b =
      (.err 503 (lit "默认翻译服务暂不可用，请配置自定义提供商后重试"), calls) := by
  have hm : lit "DEFAULT_TRANSLATION_SERVICE_UNAVAILABLE" ≠ ([] : Str) := by decide
  simp only [serveHandler, hv, hd, toErrorMessage, if_pos hm, if_pos rfl]
  simp

lemma oc_calls (fetch : Fetch) (o : OpenAICompatibleOptions) :
    (translateWithOpenAICompatible fetch o).2.length = 1 := by
  simp only [translateWithOpenAICompatible]
  split_ifs <;> rfl

lemma oc_calls_url (fetch : Fetch) (o : OpenAICompatibleOptions) :
    (translateWithOpenAICompatible fetch o).2.map FetchReq.url = [o.apiUrl] := by
  simp only [translateWithOpenAICompatible]
  split_ifs <;> rfl

lemma oc_calls_model (fetch : Fetch) (o : OpenAICompatibleOptions) :
    (translateWithOpenAICompatible fetch o).2.map (fun c => jGet c.body (lit "model")) =
      [Json.str o.model] := by
  simp only [translateWithOpenAICompatible]
  split_ifs <;> rfl

lemma deeplx_calls (fetch : Fetch) (text src tgt : Str) (bu ak : Option Str) :
    (translateWithDeepLX fetch text src tgt bu ak).2.length = 1 := by
  simp only [translateWithDeepLX]
  split_ifs <;> rfl

lemma oc_error {resp : FetchResp} (hbad : resp.isOk = false) (o : OpenAICompatibleOptions) :
    (translateWithOpenAICompatible (fun _ => resp) o).1 = .error (ocErrorMessage resp.status) := by
  simp only [translateWithOpenAICompatible, ocErrorMessage, hbad]
  split_ifs <;> simp_all

lemma ocErrorMessage_ne (s : Nat) :
    ocErrorMessage s ≠ [] ∧
      ocErrorMessage s ≠ lit "DEFAULT_TRANSLATION_SERVICE_UNAVAILABLE" := by
  unfold ocErrorMessage
  split_ifs
  · exact ⟨by decide, by decide⟩
  · exact ⟨by decide, by decide⟩
  · constructor
    · rw [show lit "翻译请求失败 (" = '翻' :: lit "译请求失败 (" from rfl]
      simp
    · intro h
      rw [show lit "翻译请求失败 (" = '翻' :: lit "译请求失败 (" from rfl,
        show lit "DEFAULT_TRANSLATION_SERVICE_UNAVAILABLE" =
          'D' :: lit "EFAULT_TRANSLATION_SERVICE_UNAVAILABLE" from rfl] at h
      rw [List.cons_append] at h
      have := List.head_eq_of_cons_eq h
      exact absurd this (by decide)

end Translate

namespace Translate

/-- C1: a validated request supplying none of `providerType`,
`customApiKey`, `customBaseUrl` is routed to the system default gateway
`https://ai.gateway.lovable.dev/v1/chat/completions` with model
`google/gemini-3-flash-preview`; when the server-held `LOVABLE_API_KEY`
is absent the response is HTTP 503 with the configure-a-custom-provider
message (not a generic 500), and no HTTP call is made. -/
theorem claim1_default_gateway (b : TranslateRequestBody) (hv : serveValidate b = none)
    (hpt : b.providerType = none) (hak : b.customApiKey = none) (hbu : b.customBaseUrl = none) :
    (∀ k : Str, k ≠ [] → ∀ fetch : Fetch,
      (serveHandler (some k) fetch b).2.map FetchReq.url =
        [lit "https://ai.gateway.lovable.dev/v1/chat/completions"] ∧
      (serveHandler (some k) fetch b).2.map (fun c => jGet c.body (lit "model")) =
        [Json.str (lit "google/gemini-3-flash-preview")]) ∧
    (∀ fetch : Fetch,
      serveHandler none fetch b =
        (.err 503 (lit "默认翻译服务暂不可用，请配置自定义提供商后重试"), [])) := by
  constructor
  · intro k hk fetch
    have hdisp : dispatchTranslate (some k) fetch
        (match b.text with | .str s => s | _ => []) b =
        ((translateWithOpenAICompatible fetch
          { text := match b.text with | .str s => s | _ => []
            sourceLang := jsOrStr b.sourceLang (lit "auto")
            targetLang := jsOrStr b.targetLang (lit "en")
            apiUrl := lit "https://ai.gateway.lovable.dev/v1/chat/completions"
            apiKey := some k
            model := lit "google/gemini-3-flash-preview" }).1.map Json.str,
         (translateWithOpenAICompatible fetch
          { text := match b.text with | .str s => s | _ => []
            sourceLang := jsOrStr b.sourceLang (lit "auto")
            targetLang := jsOrStr b.targetLang (lit "en")
            apiUrl := lit "https://ai.gateway.lovable.dev/v1/chat/completions"
            apiKey := some k
            model := lit "google/gemini-3-flash-preview" }).2) := by
      simp [dispatchTranslate, hpt, hak, hbu, jsTruthyStr,
        translateWithLovableDefaultService, hk]
    rw [serveHandler_calls _ _ _ hv]
    rw [hdisp]
    exact ⟨oc_calls_url fetch _, oc_calls_model fetch _⟩
  · intro fetch
    apply serveHandler_unavailable hv
    simp [dispatchTranslate, hpt, hak, hbu, jsTruthyStr,
      translateWithLovableDefaultService, Except.map]

/-- C1 witness: the two routes evaluated on a concrete request. -/
theorem claim1_witness :
    (serveHandler (some (lit "k")) (fun _ => ⟨200, .null, []⟩)
      { text := .str (lit "Hi") }).2.map FetchReq.url =
      [lit "https://ai.gateway.lovable.dev/v1/chat/completions"] ∧
    serveHandler none (fun _ => ⟨200, .null, []⟩) { text := .str (lit "Hi") } =
      (.err 503 (lit "默认翻译服务暂不可用，请配置自定义提供商后重试"), []) :=
  ⟨((claim1_default_gateway { text := .str (lit "Hi") } rfl rfl rfl rfl).1
      (lit "k") (by decide) _).1,
    (claim1_default_gateway { text := .str (lit "Hi") } rfl rfl rfl rfl).2 _⟩

end Translate

namespace Translate

/-- C2: with a validated request naming a provider and no (truthy)
`customApiKey`, the five key-requiring providers fail with their specific
API-Key-required message and an empty HTTP trace, for every environment
and network oracle; DeepLX and each OpenAI-compatible provider instead
proceed to exactly one provider call, and with a well-formed 200 response
the request succeeds. -/
theorem claim2_credential_checks (b : TranslateRequestBody) (p : ProviderType)
    (hv : serveValidate b = none) (hpt : b.providerType = some p)
    (hak : jsTruthyStr b.customApiKey = false) :
    ((p = .microsoft → ∀ (env : Option Str) (fetch : Fetch),
        serveHandler env fetch b = (.err 500 (lit "Microsoft Translator 需要 API Key"), [])) ∧
     (p = .googleTranslate → ∀ (env : Option Str) (fetch : Fetch),
        serveHandler env fetch b = (.err 500 (lit "Google Cloud Translation 需要 API Key"), [])) ∧
     (p = .gemini → ∀ (env : Option Str) (fetch : Fetch),
        serveHandler env fetch b = (.err 500 (lit "Gemini 需要 API Key"), [])) ∧
     (p = .anthropic → ∀ (env : Option Str) (fetch : Fetch),
        serveHandler env fetch b = (.err 500 (lit "Anthropic 需要 API Key"), [])) ∧
     (p = .azure → ∀ (env : Option Str) (fetch : Fetch),
        serveHandler env fetch b = (.err 500 (lit "Azure OpenAI 需要 API Key"), []))) ∧
    (p = .deeplx ∨ p ∈ OPENAI_COMPATIBLE_PROVIDERS →
      (∀ (env : Option Str) (fetch : Fetch), (serveHandler env fetch b).2.length = 1) ∧
      (∀ env : Option Str, (serveHandler env okFetch b).1 = .ok (.str (lit "T")))) := by
  constructor
  · refine ⟨?_, ?_, ?_, ?_, ?_⟩ <;> rintro rfl <;> intro env fetch <;>
      refine serveHandler_error hv ?_ (by decide) (by decide) <;>
      simp [dispatchTranslate, hpt, hak]
  · intro hp
    have hOC : ∀ q : ProviderType, q ∈ OPENAI_COMPATIBLE_PROVIDERS → q = .deeplx ∨
        q ∈ OPENAI_COMPATIBLE_PROVIDERS := fun q h => Or.inr h
    constructor
    · intro env fetch
      rw [serveHandler_calls _ _ _ hv]
      rcases hp with rfl | hp
      · have hd : dispatchTranslate env fetch
            (match b.text with | .str s => s | _ => []) b =
            translateWithDeepLX fetch (match b.text with | .str s => s | _ => [])
              (jsOrStr b.sourceLang (lit "auto")) (jsOrStr b.targetLang (lit "en"))
              b.customBaseUrl b.customApiKey := by
          simp [dispatchTranslate, hpt, hak]
        rw [hd]
        exact deeplx_calls _ _ _ _ _ _
      · simp [OPENAI_COMPATIBLE_PROVIDERS] at hp
        rcases hp with rfl | rfl | rfl | rfl | rfl
        all_goals {
          have hd : (dispatchTranslate env fetch
              (match b.text with | .str s => s | _ => []) b).2 =
              (translateWithOpenAICompatible fetch
                { text := match b.text with | .str s => s | _ => []
                  sourceLang := jsOrStr b.sourceLang (lit "auto")
                  targetLang := jsOrStr b.targetLang (lit "en")
                  apiUrl := resolveOpenAICompatibleUrl (b.providerType.getD .openai)
                    b.customBaseUrl
                  apiKey := b.customApiKey
                  model := resolveModel (b.providerType.getD .openai) b.model }).2 := by
            simp [dispatchTranslate, hpt, hak, OPENAI_COMPATIBLE_PROVIDERS]
          rw [hd]
          exact oc_calls _ _
        }
    · intro env
      rcases hp with rfl | hp
      · refine serveHandler_res_ok hv ?_
        have hd : (dispatchTranslate env okFetch
            (match b.text with | .str s => s | _ => []) b).1 =
            (translateWithDeepLX okFetch (match b.text with | .str s => s | _ => [])
              (jsOrStr b.sourceLang (lit "auto")) (jsOrStr b.targetLang (lit "en"))
              b.customBaseUrl b.customApiKey).1 := by
          simp [dispatchTranslate, hpt, hak]
        rw [hd]
        rfl
      · simp [OPENAI_COMPATIBLE_PROVIDERS] at hp
        refine serveHandler_res_ok hv ?_
        rcases hp with rfl | rfl | rfl | rfl | rfl
        all_goals {
          have hd : (dispatchTranslate env okFetch
              (match b.text with | .str s => s | _ => []) b).1 =
              ((translateWithOpenAICompatible okFetch
                { text := match b.text with | .str s => s | _ => []
                  sourceLang := jsOrStr b.sourceLang (lit "auto")
                  targetLang := jsOrStr b.targetLang (lit "en")
                  apiUrl := resolveOpenAICompatibleUrl (b.providerType.getD .openai)
                    b.customBaseUrl
                  apiKey := b.customApiKey
                  model := resolveModel (b.providerType.getD .openai) b.model }).1.map
                Json.str) := by
            simp [dispatchTranslate, hpt, hak, OPENAI_COMPATIBLE_PROVIDERS]
          rw [hd]
          rfl
        }

end Translate

namespace Translate

/-- C2 witness: keyless Microsoft fails with its message and no HTTP call;
keyless DeepLX proceeds and succeeds against a 200 oracle. -/
theorem claim2_witness :
    serveHandler none okFetch { text := .str (lit "Hi"), providerType := some .microsoft } =
      (.err 500 (lit "Microsoft Translator 需要 API Key"), []) ∧
    (serveHandler none okFetch { text := .str (lit "Hi"), providerType := some .deeplx }).1 =
      .ok (.str (lit "T")) :=
  ⟨(claim2_credential_checks { text := .str (lit "Hi"), providerType := some .microsoft }
      .microsoft rfl rfl rfl).1.1 rfl none okFetch,
    ((claim2_credential_checks { text := .str (lit "Hi"), providerType := some .deeplx }
      .deeplx rfl rfl rfl).2 (Or.inl rfl)).2 none⟩

/-- C3: for a validated request to any OpenAI-compatible provider — and for
the default-gateway route — a non-2xx upstream response maps to an HTTP
500 whose message is the fixed rate-limited string for 429, the fixed
quota-exhausted string for 402, and the generic message carrying the
numeric status otherwise. -/
theorem claim3_upstream_errors (b : TranslateRequestBody) (p : ProviderType)
    (hv : serveValidate b = none) (hpt : b.providerType = some p)
    (hOC : p ∈ OPENAI_COMPATIBLE_PROVIDERS) (resp : FetchResp) (hbad : resp.isOk = false) :
    (∀ env : Option Str,
      (serveHandler env (fun _ => resp) b).1 = .err 500 (ocErrorMessage resp.status)) ∧
    (∀ b2 : TranslateRequestBody, serveValidate b2 = none → b2.providerType = none →
      b2.customApiKey = none → b2.customBaseUrl = none → ∀ k : Str, k ≠ [] →
      (serveHandler (some k) (fun _ => resp) b2).1 = .err 500 (ocErrorMessage resp.status)) := by
  have hne := ocErrorMessage_ne resp.status
  constructor
  · intro env
    refine serveHandler_res_error hv ?_ hne.1 hne.2
    simp [OPENAI_COMPATIBLE_PROVIDERS] at hOC
    rcases hOC with rfl | rfl | rfl | rfl | rfl
    all_goals {
      have hd : (dispatchTranslate env (fun _ => resp)
          (match b.text with | .str s => s | _ => []) b).1 =
          ((translateWithOpenAICompatible (fun _ => resp)
            { text := match b.text with | .str s => s | _ => []
              sourceLang := jsOrStr b.sourceLang (lit "auto")
              targetLang := jsOrStr b.targetLang (lit "en")
              apiUrl := resolveOpenAICompatibleUrl (b.providerType.getD .openai)
                b.customBaseUrl
              apiKey := b.customApiKey
              model := resolveModel (b.providerType.getD .openai) b.model }).1.map
            Json.str) := by
        simp [dispatchTranslate, hpt, OPENAI_COMPATIBLE_PROVIDERS]
      rw [hd, oc_error hbad]
      rfl
    }
  · intro b2 hv2 hpt2 hak2 hbu2 k hk
    refine serveHandler_res_error hv2 ?_ hne.1 hne.2
    have hd : (dispatchTranslate (some k) (fun _ => resp)
        (match b2.text with | .str s => s | _ => []) b2).1 =
        ((translateWithOpenAICompatible (fun _ => resp)
          { text := match b2.text with | .str s => s | _ => []
            sourceLang := jsOrStr b2.sourceLang (lit "auto")
            targetLang := jsOrStr b2.targetLang (lit "en")
            apiUrl := lit "https://ai.gateway.lovable.dev/v1/chat/completions"
            apiKey := some k
            model := lit "google/gemini-3-flash-preview" }).1.map Json.str) := by
      simp [dispatchTranslate, hpt2, hak2, hbu2, translateWithLovableDefaultService,
        jsTruthyStr, hk]
    rw [hd, oc_error hbad]
    rfl

/-- C3 witness: a simulated 429 on an OpenAI call produces a 500 with the
exact fixed rate-limited message. -/
theorem claim3_witness :
    ocErrorMessage 429 = lit "请求过于频繁，请稍后再试。" ∧
    (serveHandler none (fun _ => (⟨429, .null, []⟩ : FetchResp))
      { text := .str (lit "Hi"), providerType := some .openai }).1 =
      .err 500 (ocErrorMessage 429) :=
  ⟨by decide,
    (claim3_upstream_errors { text := .str (lit "Hi"), providerType := some .openai }
      .openai rfl rfl (by decide) ⟨429, .null, []⟩ (by decide)).1 none⟩

end Translate

namespace Translate

set_option maxRecDepth 4000 in
/-- C6: a 50,000-character text passes validation; a 50,001-character text
is answered 413 with no HTTP call; a missing or empty text is answered
400; and an unknown source or target language is answered 400, all before
any network call. -/
theorem claim6_validation :
    (∀ (b : TranslateRequestBody) (s : Str), b.text = .str s → s.length = 50000 →
      b.sourceLang = none → b.targetLang = none → serveValidate b = none) ∧
    (∀ (b : TranslateRequestBody) (s : Str), b.text = .str s → s.length = 50001 →
      ∀ (env : Option Str) (fetch : Fetch),
        serveHandler env fetch b =
          (.err 413 (lit "Text exceeds maximum length of 50,000 characters"), [])) ∧
    (∀ b : TranslateRequestBody, b.text = .null ∨ b.text = .str [] →
      ∀ (env : Option Str) (fetch : Fetch),
        serveHandler env fetch b = (.err 400 (lit "Missing text"), [])) ∧
    (∀ (b : TranslateRequestBody) (s l : Str), b.text = .str s → s ≠ [] →
      s.length ≤ 50000 → b.sourceLang = some l → l ≠ [] → l ∉ VALID_LANGS →
      ∀ (env : Option Str) (fetch : Fetch),
        serveHandler env fetch b = (.err 400 (lit "Invalid source language"), [])) ∧
    (∀ (b : TranslateRequestBody) (s l : Str), b.text = .str s → s ≠ [] →
      s.length ≤ 50000 → b.sourceLang = none → b.targetLang = some l → l ≠ [] →
      l ∉ VALID_LANGS →
      ∀ (env : Option Str) (fetch : Fetch),
        serveHandler env fetch b = (.err 400 (lit "Invalid target language"), [])) := by
  refine ⟨?_, ?_, ?_, ?_, ?_⟩
  · intro b s hb hlen hsl htl
    have hs : s ≠ [] := by
      intro h0
      rw [h0] at hlen
      simp at hlen
    simp [serveValidate, hb, hsl, htl, jsTruthy, jsTruthyStr, hs, hlen, MAX_TEXT_LENGTH]
  · intro b s hb hlen env fetch
    have hs : s ≠ [] := by
      intro h0
      rw [h0] at hlen
      simp at hlen
    have hv : serveValidate b =
        some (.err 413 (lit "Text exceeds maximum length of 50,000 characters")) := by
      simp [serveValidate, hb, jsTruthy, hs, hlen, MAX_TEXT_LENGTH]
    simp [serveHandler, hv]
  · intro b hb env fetch
    have hv : serveValidate b = some (.err 400 (lit "Missing text")) := by
      rcases hb with hb | hb <;> simp [serveValidate, hb, jsTruthy]
    simp [serveHandler, hv]
  · intro b s l hb hs hlen hsl hl hmem env fetch
    have hv : serveValidate b = some (.err 400 (lit "Invalid source language")) := by
      simp [serveValidate, hb, hsl, jsTruthy, jsTruthyStr, hs, hl, hmem, MAX_TEXT_LENGTH,
        Nat.not_lt.mpr hlen]
    simp [serveHandler, hv]
  · intro b s l hb hs hlen hsl htl hl hmem env fetch
    have hv : serveValidate b = some (.err 400 (lit "Invalid target language")) := by
      simp [serveValidate, hb, hsl, htl, jsTruthy, jsTruthyStr, hs, hl, hmem, MAX_TEXT_LENGTH,
        Nat.not_lt.mpr hlen]
    simp [serveHandler, hv]

/-- C6 witness: the boundary lengths 50,000 and 50,001 and an invalid
source language, each evaluated on a concrete request. -/
theorem claim6_witness :
    serveValidate { text := .str (List.replicate 50000 'a') } = none ∧
    serveHandler none (fun _ => ⟨200, .null, []⟩)
      { text := .str (List.replicate 50001 'a') } =
      (.err 413 (lit "Text exceeds maximum length of 50,000 characters"), []) ∧
    serveHandler none (fun _ => ⟨200, .null, []⟩)
      { text := .str (lit "Hi"), sourceLang := some (lit "xx") } =
      (.err 400 (lit "Invalid source language"), []) :=
  ⟨claim6_validation.1 _ _ rfl (List.length_replicate _ _) rfl rfl,
    claim6_validation.2.1 _ _ rfl (List.length_replicate _ _) none _,
    claim6_validation.2.2.2.1 _ _ _ rfl (by decide) (by decide) rfl (by decide) (by decide)
      none _⟩

end Translate
